import Mathlib

/-
Verification of the reconciliation engine of imdb-trakt-sync
(src/internal/syncer/syncer.go).

The syncer is embedded shallowly: every external call and every log line is
recorded as an `Event` in a trace, and fallible Go code becomes values of
`SyncM α = List Event × Except String α`.  The collaborator clients are
modelled as records of pure response functions; a run is deterministic given
the configuration and those responses.

Functions from the `entities` package and the client constructors are not part
of `src/`; the ones the claims need are modelled from the spec and marked
`Modelled from the spec:` in their doc comments.  Everything else is a direct
translation of syncer.go.
-/

namespace ImdbTraktSync

/-- Sync mode enumeration. Modelled from the spec: the configuration surface
exposes `sync mode ∈ \x7bfull, add-only, dry-run\x7d` (appconfig constants are not
under src/). -/
inductive SyncMode
  | full
  | addOnly
  | dryRun
deriving DecidableEq, Repr

/-- String rendering of a sync mode, used in log messages
(`fmt.Sprintf("sync mode %s ...", syncMode)`). -/
def SyncMode.toStr : SyncMode → String
  | SyncMode.full => "full"
  | SyncMode.addOnly => "add-only"
  | SyncMode.dryRun => "dry-run"

/-- An IMDb (source service) item: entities.IMDbItem. Modelled from the spec:
a trackable work with a typed external identifier, a media-type tag and a
numeric rating value. -/
structure IMDbItem where
  id : String
  titleType : String
  rating : Nat
deriving DecidableEq, Repr

/-- A Trakt (mirror service) item: entities.TraktItem. Modelled from the spec:
a trackable work with a media-type tag and the typed external identifier of
its payload. -/
structure TraktItem where
  itemType : String
  imdbID : String
deriving DecidableEq, Repr

/-- An IMDb list: entities.IMDbList (ListID, ListName, IsWatchlist,
ListItems). -/
structure IMDbList where
  listID : String
  listName : String
  isWatchlist : Bool
  listItems : List IMDbItem
deriving DecidableEq, Repr

/-- Correspondence record: entities.TraktIDMeta maps a source list identifier
to the derived mirror slug plus the original list name. -/
structure TraktIDMeta where
  imdb : String
  slug : String
  listName : String
deriving DecidableEq, Repr

/-- A Trakt list: entities.TraktList (IDMeta and items). -/
structure TraktList where
  idMeta : TraktIDMeta
  listItems : List TraktItem
deriving DecidableEq, Repr

/-- The Go zero value `entities.TraktList\x7b\x7d`, produced by indexing
`s.user.traktLists` at an absent key. -/
def emptyTraktList : TraktList :=
  { idMeta := { imdb := "", slug := "", listName := "" }, listItems := [] }

/-- Diff result for any domain: entities.ListDifference / ItemsDifference
output, an Add and a Remove action set. -/
structure ItemsDiff where
  add : List TraktItem
  remove : List TraktItem
deriving DecidableEq, Repr

/-- Result variants delegated by the mirror client's ListsGet: either the
typed not-found signal carrying the unresolved slug
(client.TraktListNotFoundError) or any other error. -/
inductive DelegatedError
  | notFound (slug : String)
  | other (msg : String)
deriving DecidableEq, Repr

/-- A Trakt history entry; the syncer only ever inspects the length of the
fetched history list. -/
structure TraktHistoryEntry where
  entryID : Nat
deriving DecidableEq, Repr

/-- Observable actions of a run: every client call (reads and mutations) and
every log line, in the order they happen. -/
inductive Event
  | ratingsExport
  | listsExport (lids : List String)
  | watchlistExport
  | imdbListsGet (lids : List String)
  | traktListsGet (metas : List TraktIDMeta)
  | listAdd (slug : String) (listName : String)
  | imdbWatchlistGet
  | traktWatchlistGet
  | traktRatingsGet
  | imdbRatingsGet
  | watchlistItemsAdd (items : List TraktItem)
  | watchlistItemsRemove (items : List TraktItem)
  | listItemsAdd (slug : String) (items : List TraktItem)
  | listItemsRemove (slug : String) (items : List TraktItem)
  | ratingsAdd (items : List TraktItem)
  | ratingsRemove (items : List TraktItem)
  | historyGet (mediaType : String) (itemID : String)
  | historyAdd (items : List TraktItem)
  | historyRemove (items : List TraktItem)
  | logInfo (msg : String)
  | logInfoP (msg : String) (key : String) (items : List TraktItem)
  | logError (msg : String) (err : String)
deriving DecidableEq, Repr

/-- The kind of an event, forgetting its payload. -/
inductive EventKind
  | ratingsExport
  | listsExport
  | watchlistExport
  | imdbListsGet
  | traktListsGet
  | listAdd
  | imdbWatchlistGet
  | traktWatchlistGet
  | traktRatingsGet
  | imdbRatingsGet
  | watchlistItemsAdd
  | watchlistItemsRemove
  | listItemsAdd
  | listItemsRemove
  | ratingsAdd
  | ratingsRemove
  | historyGet
  | historyAdd
  | historyRemove
  | logInfo
  | logInfoP
  | logError
deriving DecidableEq, Repr

/-- Kind of an event. -/
def Event.kind : Event → EventKind
  | Event.ratingsExport => EventKind.ratingsExport
  | Event.listsExport _ => EventKind.listsExport
  | Event.watchlistExport => EventKind.watchlistExport
  | Event.imdbListsGet _ => EventKind.imdbListsGet
  | Event.traktListsGet _ => EventKind.traktListsGet
  | Event.listAdd _ _ => EventKind.listAdd
  | Event.imdbWatchlistGet => EventKind.imdbWatchlistGet
  | Event.traktWatchlistGet => EventKind.traktWatchlistGet
  | Event.traktRatingsGet => EventKind.traktRatingsGet
  | Event.imdbRatingsGet => EventKind.imdbRatingsGet
  | Event.watchlistItemsAdd _ => EventKind.watchlistItemsAdd
  | Event.watchlistItemsRemove _ => EventKind.watchlistItemsRemove
  | Event.listItemsAdd _ _ => EventKind.listItemsAdd
  | Event.listItemsRemove _ _ => EventKind.listItemsRemove
  | Event.ratingsAdd _ => EventKind.ratingsAdd
  | Event.ratingsRemove _ => EventKind.ratingsRemove
  | Event.historyGet _ _ => EventKind.historyGet
  | Event.historyAdd _ => EventKind.historyAdd
  | Event.historyRemove _ => EventKind.historyRemove
  | Event.logInfo _ => EventKind.logInfo
  | Event.logInfoP _ _ _ => EventKind.logInfoP
  | Event.logError _ _ => EventKind.logError

/-- Subtrace of events whose kind is in `ks`. -/
def filterKinds (ks : List EventKind) (tr : List Event) : List Event :=
  tr.filter (fun e => decide (e.kind ∈ ks))

/-- Number of events of kind `k` in a trace. -/
def countKind (k : EventKind) (tr : List Event) : Nat :=
  (tr.filter (fun e => decide (e.kind = k))).length

/-- The kinds of the four mutating remove operations on the mirror, one per
domain (watchlist, named lists, ratings, history). -/
def removeKinds : List EventKind :=
  [EventKind.watchlistItemsRemove, EventKind.listItemsRemove,
   EventKind.ratingsRemove, EventKind.historyRemove]

/-- Subtrace of mutating remove calls. -/
def removeKindEvents (tr : List Event) : List Event :=
  filterKinds removeKinds tr

/-- Number of occurrences of an item in a list. -/
def occCount (a : TraktItem) (l : List TraktItem) : Nat :=
  (l.filter (fun x => decide (x = a))).length

/-- The computation model of a run fragment: the trace of events it emits
together with its result or wrapped error (Go `error` returns). -/
def SyncM (α : Type) : Type := List Event × Except String α

/-- Successful result with no events. -/
def SyncM.ret (a : α) : SyncM α := ([], Except.ok a)

/-- Failure with no events (a plain `fmt.Errorf` return). -/
def SyncM.fail (e : String) : SyncM α := ([], Except.error e)

/-- Emit one log event. -/
def SyncM.emit (ev : Event) : SyncM Unit := ([ev], Except.ok ())

/-- Perform one client call: the call event is recorded whether or not the
response is an error; an error is wrapped with the operation's context
(`fmt.Errorf("...: %w", err)`). -/
def SyncM.call (ev : Event) (wrap : String) (r : Except String α) : SyncM α :=
  match r with
  | Except.ok a => ([ev], Except.ok a)
  | Except.error e => ([ev], Except.error (wrap ++ e))

/-- Sequencing: the Go statement sequence; an error short-circuits
(`if err != nil \x7b return err \x7d`). -/
def SyncM.seq (x : SyncM α) (f : α → SyncM β) : SyncM β :=
  match x with
  | (tr, Except.ok a) => (tr ++ (f a).1, (f a).2)
  | (tr, Except.error e) => (tr, Except.error e)

/-- Association-list lookup, modelling Go map reads (`m[k]` presence). -/
def assocLookup (l : List (String × α)) (k : String) : Option α :=
  (l.find? (fun p => decide (p.1 = k))).map Prod.snd

/-- Association-list insert, modelling Go map writes (`m[k] = v`): replaces
the binding if the key is present, otherwise appends it. -/
def assocInsert : List (String × α) → String → α → List (String × α)
  | [], k, v => [(k, v)]
  | p :: rest, k, v =>
    if p.1 = k then (k, v) :: rest else p :: assocInsert rest k v

/-- In-memory state of both services: the `user` struct of syncer.go
(imdbLists, imdbRatings, traktLists, traktRatings), with Go maps modelled as
association lists in insertion order. -/
structure UserState where
  imdbLists : List (String × IMDbList)
  imdbRatings : List (String × IMDbItem)
  traktLists : List (String × TraktList)
  traktRatings : List (String × TraktItem)
deriving DecidableEq, Repr

/-- Sync configuration: the already-resolved booleans and mode consumed by the
core (appconfig.Sync). -/
structure SyncConf where
  lists : Bool
  watchlist : Bool
  ratings : Bool
  history : Bool
  mode : SyncMode
deriving DecidableEq, Repr

/-- Responses of the source-service client (client.IMDbClientInterface), as
pure values: the syncer is single-threaded and each operation is consulted at
most once per run with fixed arguments. -/
structure IMDbClientResp where
  ratingsExport : Except String Unit
  listsExport : List String → Except String Unit
  watchlistExport : Except String Unit
  listsGet : List String → Except String (List IMDbList)
  watchlistGet : Except String IMDbList
  ratingsGet : Except String (List IMDbItem)

/-- Responses of the mirror-service client (client.TraktClientInterface).
`listsGet` returns the usable lists plus delegated per-slug errors, matching
`ListsGet(ids) (TraktLists, []error)`. -/
structure TraktClientResp where
  listsGet : List TraktIDMeta → List TraktList × List DelegatedError
  listAdd : String → String → Except String Unit
  watchlistGet : Except String TraktList
  ratingsGet : Except String (List TraktItem)
  watchlistItemsAdd : List TraktItem → Except String Unit
  watchlistItemsRemove : List TraktItem → Except String Unit
  listItemsAdd : String → List TraktItem → Except String Unit
  listItemsRemove : String → List TraktItem → Except String Unit
  ratingsAdd : List TraktItem → Except String Unit
  ratingsRemove : List TraktItem → Except String Unit
  historyGet : String → String → Except String (List TraktHistoryEntry)
  historyAdd : List TraktItem → Except String Unit
  historyRemove : List TraktItem → Except String Unit

/-- Normalization of one character of a list name: spaces become hyphens,
letters are lowercased. -/
def slugChar (c : Char) : Char := if c = ' ' then '-' else c.toLower

/-- Modelled from the spec: `entities.InferTraktListSlug` is not under src/;
the spec requires a normalized, URL-safe, deterministic form of the list name
(same name always gives the same slug; scenario: "Watched 2024" becomes
"watched-2024"). -/
def InferTraktListSlug (name : String) : String :=
  String.mk (name.data.map slugChar)

/-- Modelled from the spec: `entities.TraktIDMetas.GetListNameFromSlug` is not
under src/; it recovers the matching source list name for the slug carried by
a not-found signal. -/
def GetListNameFromSlug (metas : List TraktIDMeta) (slug : String) : String :=
  match metas.find? (fun m => decide (m.slug = slug)) with
  | some m => m.listName
  | none => ""

/-- Modelled from the spec: `entities.TraktItem.GetItemID` is not under src/.
Per the spec, a rating item's derived identity must resolve to a concrete
typed identifier for a recognized media type, and the derivation fails with an
error for an unrecognized item shape; it never produces a missing identifier
without an error (the Go signature is `(*string, error)`). -/
def TraktItem.getItemID (it : TraktItem) : Except String (Option String) :=
  if it.itemType = "movie" ∨ it.itemType = "show" ∨ it.itemType = "season" ∨
      it.itemType = "episode" then
    Except.ok (some it.imdbID)
  else
    Except.error ("unknown trakt item type " ++ it.itemType)

/-- Modelled from the spec: the conversion applied by the diff engine so that
Add entries are actionable on the mirror; preserves the identity key and the
media-type tag. -/
def toTraktItem (it : IMDbItem) : TraktItem :=
  { itemType := it.titleType, imdbID := it.id }

/-- Key membership in an association list. -/
def keyMem (k : String) (l : List (String × α)) : Bool :=
  l.any (fun p => decide (p.1 = k))

/-- Modelled from the spec: `entities.ItemsDifference` is not under src/; Add
is the elements whose identity key exists in source but not mirror, Remove the
elements whose identity key exists in mirror but not source; comparison is by
identity key only. -/
def ItemsDifference (source : List (String × IMDbItem))
    (mirror : List (String × TraktItem)) : ItemsDiff :=
  { add := (source.filter (fun p => !keyMem p.1 mirror)).map
      (fun p => toTraktItem p.2)
    remove := (mirror.filter (fun q => !keyMem q.1 source)).map Prod.snd }

/-- Modelled from the spec: `entities.ListDiff` is not under src/; same
algorithm shape as `ItemsDifference` with list items keyed by their typed
identifier. -/
def ListDiff (src : IMDbList) (mir : TraktList) : ItemsDiff :=
  { add := (src.listItems.filter
      (fun it => !mir.listItems.any (fun t => decide (t.imdbID = it.id)))).map
      toTraktItem
    remove := mir.listItems.filter
      (fun t => !src.listItems.any (fun it => decide (it.id = t.imdbID))) }

/-- The stub entry `IMDbList\x7bListID: lid\x7d` (a Go struct with zero values for
the other fields) that NewSyncer (syncer.go lines 50-60) seeds into
`imdbLists` for every configured list id. -/
def stubIMDbList (lid : String) : IMDbList :=
  { listID := lid, listName := "", isWatchlist := false, listItems := [] }

/-- The initial user state seeded by NewSyncer: stubs for the configured list
ids when lists or watchlist sync is enabled, empty maps otherwise. -/
def initialUser (conf : SyncConf) (lids : List String) : UserState :=
  { imdbLists :=
      (if conf.lists || conf.watchlist then
        lids.map (fun lid => (lid, stubIMDbList lid))
      else [])
    imdbRatings := []
    traktLists := []
    traktRatings := [] }

/-- Log message of a dry-run-suppressed add action
(`"sync mode %s would have added %d trakt <kind> item(s)"`). -/
def addedMsg (mode : SyncMode) (kind : String) (n : Nat) : String :=
  "sync mode " ++ mode.toStr ++ " would have added " ++ toString n ++
    " trakt " ++ kind ++ " item(s)"

/-- Log message of a suppressed delete action
(`"sync mode %s would have deleted %d trakt <kind> item(s)"`). -/
def deletedMsg (mode : SyncMode) (kind : String) (n : Nat) : String :=
  "sync mode " ++ mode.toStr ++ " would have deleted " ++ toString n ++
    " trakt " ++ kind ++ " item(s)"

/-- The export block of hydrate (syncer.go lines 91-105): trigger the source
exports for each enabled domain, in the order ratings, lists, watchlist. -/
def hydrateExports (ic : IMDbClientResp) (conf : SyncConf)
    (lids : List String) : SyncM Unit :=
  SyncM.seq
    (if conf.ratings then
      SyncM.call Event.ratingsExport "failure exporting imdb ratings: "
        ic.ratingsExport
     else SyncM.ret ()) (fun _ =>
  SyncM.seq
    (if conf.lists then
      SyncM.call (Event.listsExport lids) "failure exporting imdb lists: "
        (ic.listsExport lids)
     else SyncM.ret ()) (fun _ =>
  if conf.watchlist then
    SyncM.call Event.watchlistExport "failure exporting imdb watchlist: "
      ic.watchlistExport
  else SyncM.ret ()))

/-- The correspondence set built from the fetched source lists (syncer.go
lines 111-119). -/
def mkIDMetas (ls : List IMDbList) : List TraktIDMeta :=
  ls.map (fun l =>
    { imdb := l.listID, slug := InferTraktListSlug l.listName,
      listName := l.listName })

/-- The delegated-error loop of hydrate (syncer.go lines 121-136): a not-found
signal is logged in dry-run mode or answered with a create-list call in the
other modes; any other delegated error aborts. -/
def processDelegated (tc : TraktClientResp) (mode : SyncMode)
    (metas : List TraktIDMeta) : List DelegatedError → SyncM Unit
  | [] => SyncM.ret ()
  | DelegatedError.notFound slug :: rest =>
    if mode = SyncMode.dryRun then
      SyncM.seq
        (SyncM.emit (Event.logInfo
          ("sync mode " ++ mode.toStr ++ " would have created trakt list " ++
            slug ++ " to backfill imdb list " ++ GetListNameFromSlug metas slug)))
        (fun _ => processDelegated tc mode metas rest)
    else
      SyncM.seq
        (SyncM.call (Event.listAdd slug (GetListNameFromSlug metas slug))
          "failure creating trakt list: "
          (tc.listAdd slug (GetListNameFromSlug metas slug)))
        (fun _ => processDelegated tc mode metas rest)
  | DelegatedError.other msg :: _ =>
    SyncM.fail ("failure hydrating trakt lists: " ++ msg)

/-- The list block of hydrate (syncer.go lines 106-140): fetch the exported
source lists, build the correspondence set, fetch the mirror lists by it,
handle the delegated errors, and store both sides in the user state. -/
def hydrateLists (ic : IMDbClientResp) (tc : TraktClientResp) (conf : SyncConf)
    (lids : List String) (u : UserState) : SyncM UserState :=
  if conf.lists then
    SyncM.seq
      (SyncM.call (Event.imdbListsGet lids) "failure fetching imdb lists: "
        (ic.listsGet lids)) (fun imdbLists =>
      let u1 : UserState :=
        { u with imdbLists :=
            (imdbLists.foldl (fun acc l => assocInsert acc l.listID l)
              u.imdbLists) }
      let metas := mkIDMetas imdbLists
      SyncM.seq (SyncM.emit (Event.traktListsGet metas)) (fun _ =>
      SyncM.seq (processDelegated tc conf.mode metas (tc.listsGet metas).2)
        (fun _ =>
        SyncM.ret
          { u1 with traktLists :=
              ((tc.listsGet metas).1.foldl
                (fun acc tl => assocInsert acc tl.idMeta.imdb tl)
                u1.traktLists) })))
  else SyncM.ret u

/-- The watchlist block of hydrate (syncer.go lines 144-155): fetch the source
watchlist and then the mirror watchlist, storing both under the source
watchlist's list id. -/
def hydrateWatchlist (ic : IMDbClientResp) (tc : TraktClientResp)
    (conf : SyncConf) (u : UserState) : SyncM UserState :=
  if conf.watchlist then
    SyncM.seq
      (SyncM.call Event.imdbWatchlistGet "failure fetching imdb watchlist: "
        ic.watchlistGet) (fun iw =>
    SyncM.seq
      (SyncM.call Event.traktWatchlistGet "failure fetching trakt watchlist: "
        tc.watchlistGet) (fun tw =>
      SyncM.ret
        { u with imdbLists := assocInsert u.imdbLists iw.listID iw,
                 traktLists := assocInsert u.traktLists iw.listID tw }))
  else SyncM.ret u

/-- The mirror-ratings storage loop of hydrate (syncer.go lines 161-169): each
fetched mirror rating item has its typed identity derived immediately; a
derivation error aborts, and the item is stored under its derived id (the Go
code guards `if id != nil`, a case the identity derivation never produces
without an error). -/
def storeTraktRatings (u : UserState) : List TraktItem → SyncM UserState
  | [] => SyncM.ret u
  | r :: rest =>
    match r.getItemID with
    | Except.error e => SyncM.fail ("failure fetching trakt item id: " ++ e)
    | Except.ok none => storeTraktRatings u rest
    | Except.ok (some id) =>
      storeTraktRatings
        { u with traktRatings := assocInsert u.traktRatings id r } rest

/-- The ratings block of hydrate (syncer.go lines 156-177): fetch the mirror
ratings, derive and store each item's identity, then fetch the source ratings
and store them keyed by id. -/
def hydrateRatings (ic : IMDbClientResp) (tc : TraktClientResp)
    (conf : SyncConf) (u : UserState) : SyncM UserState :=
  if conf.ratings then
    SyncM.seq
      (SyncM.call Event.traktRatingsGet "failure fetching trakt ratings: "
        tc.ratingsGet) (fun trs =>
    SyncM.seq (storeTraktRatings u trs) (fun u1 =>
    SyncM.seq
      (SyncM.call Event.imdbRatingsGet "failure fetching imdb ratings: "
        ic.ratingsGet) (fun irs =>
      SyncM.ret
        { u1 with imdbRatings :=
            (irs.foldl (fun acc r => assocInsert acc r.id r) u1.imdbRatings) })))
  else SyncM.ret u

/-- hydrate (syncer.go lines 86-179): exports, then the list block, then — if
credentials are present — the watchlist and ratings blocks; in authless mode
it returns right after the list block. -/
def hydrate (ic : IMDbClientResp) (tc : TraktClientResp) (conf : SyncConf)
    (authless : Bool) (u0 : UserState) : SyncM UserState :=
  SyncM.seq (hydrateExports ic conf (u0.imdbLists.map Prod.fst)) (fun _ =>
  SyncM.seq (hydrateLists ic tc conf (u0.imdbLists.map Prod.fst) u0) (fun u1 =>
    if authless then SyncM.ret u1
    else
      SyncM.seq (hydrateWatchlist ic tc conf u1) (fun u2 =>
        hydrateRatings ic tc conf u2)))

/-- One iteration of the syncLists loop (syncer.go lines 191-237): diff the
source list against the mirror list (Go map indexing yields the zero-value
list when absent), then run the gated add and remove blocks; the boolean
threaded between the blocks models the `continue` statements that skip the
remove block after a dry-run-logged add. -/
def syncListOne (tc : TraktClientResp) (mode : SyncMode) (u : UserState)
    (l : IMDbList) : SyncM Unit :=
  let diff := ListDiff l ((assocLookup u.traktLists l.listID).getD emptyTraktList)
  if l.isWatchlist then
    SyncM.seq
      (if diff.add.length > 0 then
        if mode = SyncMode.dryRun then
          SyncM.seq
            (SyncM.emit (Event.logInfoP (addedMsg mode "list" diff.add.length)
              "watchlist" diff.add))
            (fun _ => SyncM.ret true)
        else
          SyncM.seq
            (SyncM.call (Event.watchlistItemsAdd diff.add)
              "failure adding items to trakt watchlist: "
              (tc.watchlistItemsAdd diff.add))
            (fun _ => SyncM.ret false)
       else SyncM.ret false)
      (fun skipped =>
        if skipped then SyncM.ret ()
        else if diff.remove.length > 0 then
          if mode = SyncMode.dryRun ∨ mode = SyncMode.addOnly then
            SyncM.emit (Event.logInfoP (deletedMsg mode "list" diff.remove.length)
              "watchlist" diff.remove)
          else
            SyncM.call (Event.watchlistItemsRemove diff.remove)
              "failure removing items from trakt watchlist: "
              (tc.watchlistItemsRemove diff.remove)
        else SyncM.ret ())
  else
    let slug := InferTraktListSlug l.listName
    SyncM.seq
      (if diff.add.length > 0 then
        if mode = SyncMode.dryRun then
          SyncM.seq
            (SyncM.emit (Event.logInfoP (addedMsg mode "list" diff.add.length)
              slug diff.add))
            (fun _ => SyncM.ret true)
        else
          SyncM.seq
            (SyncM.call (Event.listItemsAdd slug diff.add)
              ("failure adding items to trakt list " ++ slug ++ ": ")
              (tc.listItemsAdd slug diff.add))
            (fun _ => SyncM.ret false)
       else SyncM.ret false)
      (fun skipped =>
        if skipped then SyncM.ret ()
        else if diff.remove.length > 0 then
          if mode = SyncMode.dryRun ∨ mode = SyncMode.addOnly then
            SyncM.emit (Event.logInfoP (deletedMsg mode "list" diff.remove.length)
              slug diff.remove)
          else
            SyncM.call (Event.listItemsRemove slug diff.remove)
              ("failure removing items from trakt list " ++ slug ++ ": ")
              (tc.listItemsRemove slug diff.remove)
        else SyncM.ret ())

/-- The iteration of syncLists over every stored source list. -/
def syncListsLoop (tc : TraktClientResp) (mode : SyncMode) (u : UserState) :
    List (String × IMDbList) → SyncM Unit
  | [] => SyncM.ret ()
  | p :: rest =>
    SyncM.seq (syncListOne tc mode u p.2)
      (fun _ => syncListsLoop tc mode u rest)

/-- syncLists (syncer.go lines 181-239): skip logs for disabled domains, early
return when both are disabled, otherwise iterate every source list. -/
def syncLists (tc : TraktClientResp) (conf : SyncConf) (u : UserState) :
    SyncM Unit :=
  SyncM.seq
    (if !conf.watchlist then SyncM.emit (Event.logInfo "skipping watchlist sync")
     else SyncM.ret ()) (fun _ =>
  SyncM.seq
    (if !conf.lists then SyncM.emit (Event.logInfo "skipping lists sync")
     else SyncM.ret ()) (fun _ =>
  if !conf.watchlist && !conf.lists then SyncM.ret ()
  else syncListsLoop tc conf.mode u u.imdbLists))

/-- syncRatings (syncer.go lines 241-272): skipped entirely in authless mode
or when disabled; otherwise the ratings diff is gated per action. -/
def syncRatings (tc : TraktClientResp) (conf : SyncConf) (authless : Bool)
    (u : UserState) : SyncM Unit :=
  if authless then
    SyncM.emit (Event.logInfo "skipping ratings sync since no imdb auth was provided")
  else if !conf.ratings then
    SyncM.emit (Event.logInfo "skipping ratings sync")
  else
    let diff := ItemsDifference u.imdbRatings u.traktRatings
    SyncM.seq
      (if diff.add.length > 0 then
        if conf.mode = SyncMode.dryRun then
          SyncM.emit (Event.logInfoP (addedMsg conf.mode "rating" diff.add.length)
            "ratings" diff.add)
        else
          SyncM.call (Event.ratingsAdd diff.add) "failure adding trakt ratings: "
            (tc.ratingsAdd diff.add)
       else SyncM.ret ())
      (fun _ =>
        if diff.remove.length > 0 then
          if conf.mode = SyncMode.dryRun ∨ conf.mode = SyncMode.addOnly then
            SyncM.emit (Event.logInfoP
              (deletedMsg conf.mode "rating" diff.remove.length) "ratings"
              diff.remove)
          else
            SyncM.call (Event.ratingsRemove diff.remove)
              "failure removing trakt ratings: " (tc.ratingsRemove diff.remove)
        else SyncM.ret ())

/-- The history-Add collection loop (syncer.go lines 288-302): for each
ratings-diff Add item, derive its identity (an error aborts), fetch its mirror
history, and keep it only when no history entry exists. -/
def collectHistoryAdd (tc : TraktClientResp) :
    List TraktItem → SyncM (List TraktItem)
  | [] => SyncM.ret []
  | it :: rest =>
    match it.getItemID with
    | Except.error e => SyncM.fail ("failure fetching trakt item id: " ++ e)
    | Except.ok none => SyncM.fail "nil trakt item id"
    | Except.ok (some id) =>
      SyncM.seq
        (SyncM.call (Event.historyGet it.itemType id)
          ("failure fetching trakt history for " ++ it.itemType ++ " " ++ id ++ ": ")
          (tc.historyGet it.itemType id)) (fun history =>
        if history.length > 0 then collectHistoryAdd tc rest
        else
          SyncM.seq (collectHistoryAdd tc rest)
            (fun more => SyncM.ret (it :: more)))

/-- The history-Remove collection loop (syncer.go lines 314-329): symmetric to
`collectHistoryAdd`, keeping an item only when history entries exist. -/
def collectHistoryRemove (tc : TraktClientResp) :
    List TraktItem → SyncM (List TraktItem)
  | [] => SyncM.ret []
  | it :: rest =>
    match it.getItemID with
    | Except.error e => SyncM.fail ("failure fetching trakt item id: " ++ e)
    | Except.ok none => SyncM.fail "nil trakt item id"
    | Except.ok (some id) =>
      SyncM.seq
        (SyncM.call (Event.historyGet it.itemType id)
          ("failure fetching trakt history for " ++ it.itemType ++ " " ++ id ++ ": ")
          (tc.historyGet it.itemType id)) (fun history =>
        if history.length = 0 then collectHistoryRemove tc rest
        else
          SyncM.seq (collectHistoryRemove tc rest)
            (fun more => SyncM.ret (it :: more)))

/-- syncHistory (syncer.go lines 274-341): skipped in authless mode or when
disabled; otherwise the ratings diff drives the two history batches, each
applied through the mode gate. -/
def syncHistory (tc : TraktClientResp) (conf : SyncConf) (authless : Bool)
    (u : UserState) : SyncM Unit :=
  if authless then
    SyncM.emit (Event.logInfo "skipping history sync since no imdb auth was provided")
  else if !conf.history then
    SyncM.emit (Event.logInfo "skipping history sync")
  else
    let diff := ItemsDifference u.imdbRatings u.traktRatings
    SyncM.seq
      (if diff.add.length > 0 then
        SyncM.seq (collectHistoryAdd tc diff.add) (fun historyToAdd =>
          if historyToAdd.length > 0 then
            if conf.mode = SyncMode.dryRun then
              SyncM.emit (Event.logInfoP
                (addedMsg conf.mode "history" historyToAdd.length) "history"
                historyToAdd)
            else
              SyncM.call (Event.historyAdd historyToAdd)
                "failure adding trakt history: " (tc.historyAdd historyToAdd)
          else SyncM.ret ())
       else SyncM.ret ())
      (fun _ =>
        if diff.remove.length > 0 then
          SyncM.seq (collectHistoryRemove tc diff.remove) (fun historyToRemove =>
            if historyToRemove.length > 0 then
              if conf.mode = SyncMode.dryRun ∨ conf.mode = SyncMode.addOnly then
                SyncM.emit (Event.logInfoP
                  (deletedMsg conf.mode "history" historyToRemove.length)
                  "history" historyToRemove)
              else
                SyncM.call (Event.historyRemove historyToRemove)
                  "failure removing trakt history: "
                  (tc.historyRemove historyToRemove)
            else SyncM.ret ())
        else SyncM.ret ())

/-- One orchestrator stage (syncer.go lines 66-81): on failure the error is
logged and surfaced, and the continuation does not run. -/
def stage (x : SyncM α) (errMsg : String) (k : α → SyncM Unit) : SyncM Unit :=
  match x with
  | (tr, Except.ok a) => (tr ++ (k a).1, (k a).2)
  | (tr, Except.error e) => (tr ++ [Event.logError errMsg e], Except.error e)

/-- Sync (syncer.go lines 64-84): hydrate, then list sync, then ratings sync,
then history sync, stopping at the first stage failure. -/
def Sync (ic : IMDbClientResp) (tc : TraktClientResp) (conf : SyncConf)
    (authless : Bool) (u0 : UserState) : SyncM Unit :=
  SyncM.seq (SyncM.emit (Event.logInfo "sync started")) (fun _ =>
  stage (hydrate ic tc conf authless u0) "failure hydrating imdb client" (fun u1 =>
  stage (syncLists tc conf u1) "failure syncing lists" (fun _ =>
  stage (syncRatings tc conf authless u1) "failure syncing ratings" (fun _ =>
  stage (syncHistory tc conf authless u1) "failure syncing history" (fun _ =>
  SyncM.emit (Event.logInfo "sync completed"))))))

/-! ### Basic lemmas about the computation model -/

theorem SyncM.seq_pair_ok (tr : List Event) (a : α) (f : α → SyncM β) :
    SyncM.seq (tr, Except.ok a) f = (tr ++ (f a).1, (f a).2) := rfl

theorem SyncM.seq_pair_error (tr : List Event) (e : String) (f : α → SyncM β) :
    SyncM.seq (tr, Except.error e) f = (tr, Except.error e) := rfl

theorem SyncM.call_trace (ev : Event) (w : String) (r : Except String α) :
    (SyncM.call ev w r).1 = [ev] := by
  cases r <;> rfl

theorem SyncM.call_ok_inv {ev : Event} {w : String} {r : Except String α}
    {tr : List Event} {a : α} (h : SyncM.call ev w r = (tr, Except.ok a)) :
    tr = [ev] ∧ r = Except.ok a := by
  cases r with
  | ok b =>
    have h1 : tr = [ev] := (congrArg Prod.fst h).symm
    have h2 : Except.ok b = Except.ok a := congrArg Prod.snd h
    exact ⟨h1, h2⟩
  | error e =>
    have h2 : Except.error (α := α) (w ++ e) = Except.ok a := congrArg Prod.snd h
    exact absurd h2 (by simp)

theorem SyncM.call_of_ok {ev : Event} {w : String} {r : Except String α} {a : α}
    (h : r = Except.ok a) : SyncM.call ev w r = ([ev], Except.ok a) := by
  subst h; rfl

theorem SyncM.call_of_error {ev : Event} {w : String} {r : Except String α}
    {e : String} (h : r = Except.error e) :
    SyncM.call ev w r = ([ev], Except.error (w ++ e)) := by
  subst h; rfl

/-- Decomposition of a successful sequence into its successful parts. -/
theorem SyncM.seq_eq_ok {x : SyncM α} {f : α → SyncM β} {tr : List Event}
    {b : β} (h : SyncM.seq x f = (tr, Except.ok b)) :
    ∃ tr1 a tr2, x = (tr1, Except.ok a) ∧ f a = (tr2, Except.ok b) ∧
      tr = tr1 ++ tr2 := by
  obtain ⟨tr1, r⟩ := x
  cases r with
  | ok a =>
    have h1 : tr1 ++ (f a).1 = tr := congrArg Prod.fst h
    have h2 : (f a).2 = Except.ok b := congrArg Prod.snd h
    refine ⟨tr1, a, (f a).1, rfl, ?_, h1.symm⟩
    calc f a = ((f a).1, (f a).2) := rfl
    _ = ((f a).1, Except.ok b) := by rw [h2]
  | error e =>
    have h2 : Except.error (α := β) e = Except.ok b := congrArg Prod.snd h
    exact absurd h2 (by simp)

/-- A sequence whose first part fails, fails with that error and trace. -/
theorem SyncM.seq_of_error {x : SyncM α} {tr : List Event} {e : String}
    (h : x = (tr, Except.error e)) (f : α → SyncM β) :
    SyncM.seq x f = (tr, Except.error e) := by
  subst h; rfl

/-- A sequence whose first part succeeds. -/
theorem SyncM.seq_of_ok {x : SyncM α} {tr : List Event} {a : α}
    (h : x = (tr, Except.ok a)) (f : α → SyncM β) :
    SyncM.seq x f = (tr ++ (f a).1, (f a).2) := by
  subst h; rfl

/-- Events of a sequence trace come from the first part or, after its
success, from the second. -/
theorem SyncM.mem_seq_trace {x : SyncM α} {f : α → SyncM β} {e : Event}
    (h : e ∈ (SyncM.seq x f).1) :
    e ∈ x.1 ∨ ∃ a, x.2 = Except.ok a ∧ e ∈ (f a).1 := by
  obtain ⟨tr, r⟩ := x
  cases r with
  | ok a =>
    rcases List.mem_append.mp h with h1 | h2
    · exact Or.inl h1
    · exact Or.inr ⟨a, rfl, h2⟩
  | error e2 => exact Or.inl h

theorem SyncM.mem_ite_trace {b : Bool} {x y : SyncM α} {e : Event}
    (h : e ∈ (if b then x else y).1) :
    (b = true ∧ e ∈ x.1) ∨ (b = false ∧ e ∈ y.1) := by
  cases b with
  | true => exact Or.inl ⟨rfl, h⟩
  | false => exact Or.inr ⟨rfl, h⟩

/-! ### Lemmas about kinds, filtering and counting -/

theorem mem_filterKinds (ks : List EventKind) (tr : List Event) (e : Event) :
    e ∈ filterKinds ks tr ↔ e ∈ tr ∧ e.kind ∈ ks := by
  simp [filterKinds, List.mem_filter]

theorem filterKinds_nil (ks : List EventKind) : filterKinds ks [] = [] := rfl

theorem filterKinds_cons (ks : List EventKind) (e : Event) (tr : List Event) :
    filterKinds ks (e :: tr) =
      if e.kind ∈ ks then e :: filterKinds ks tr else filterKinds ks tr := by
  by_cases h : e.kind ∈ ks
  · simp [filterKinds, List.filter_cons, h]
  · simp [filterKinds, List.filter_cons, h]

theorem filterKinds_eq_nil {ks : List EventKind} {tr : List Event}
    (h : ∀ e ∈ tr, ¬ e.kind ∈ ks) : filterKinds ks tr = [] := by
  rw [List.eq_nil_iff_forall_not_mem]
  intro e he
  rw [mem_filterKinds] at he
  exact h e he.1 he.2

theorem filterKinds_append (ks : List EventKind) (a b : List Event) :
    filterKinds ks (a ++ b) = filterKinds ks a ++ filterKinds ks b :=
  List.filter_append ..

theorem countKind_append (k : EventKind) (a b : List Event) :
    countKind k (a ++ b) = countKind k a + countKind k b := by
  simp [countKind, List.filter_append]

theorem countKind_nil (k : EventKind) : countKind k [] = 0 := rfl

theorem countKind_eq_zero {k : EventKind} {tr : List Event}
    (h : ∀ e ∈ tr, e.kind ≠ k) : countKind k tr = 0 := by
  simp only [countKind, List.length_eq_zero]
  rw [List.eq_nil_iff_forall_not_mem]
  intro e he
  rw [List.mem_filter] at he
  exact h e he.1 (of_decide_eq_true he.2)

theorem countKind_singleton_eq {k : EventKind} {e : Event} (h : e.kind = k) :
    countKind k [e] = 1 := by
  simp [countKind, List.filter_cons, h]

theorem countKind_cons (k : EventKind) (e : Event) (tr : List Event) :
    countKind k (e :: tr) = (if e.kind = k then 1 else 0) + countKind k tr := by
  by_cases h : e.kind = k
  · simp [countKind, List.filter_cons, h, Nat.add_comm]
  · simp [countKind, List.filter_cons, h]

theorem countKind_singleton (k : EventKind) (e : Event) :
    countKind k [e] = if e.kind = k then 1 else 0 := by
  by_cases h : e.kind = k
  · simp [countKind, List.filter_cons, h]
  · simp [countKind, List.filter_cons, h]

/-! ### Event-kind inventories of the hydration blocks -/

theorem hydrateExports_kinds (ic : IMDbClientResp) (conf : SyncConf)
    (lids : List String) :
    ∀ e ∈ (hydrateExports ic conf lids).1,
      e.kind ∈ [EventKind.ratingsExport, EventKind.listsExport,
        EventKind.watchlistExport] := by
  intro e he
  unfold hydrateExports at he
  rcases SyncM.mem_seq_trace he with h1 | ⟨_, _, h1⟩
  · rcases SyncM.mem_ite_trace h1 with ⟨_, h2⟩ | ⟨_, h2⟩
    · rw [SyncM.call_trace] at h2
      simp only [List.mem_singleton] at h2; subst h2; simp [Event.kind]
    · simp [SyncM.ret] at h2
  · rcases SyncM.mem_seq_trace h1 with h2 | ⟨_, _, h2⟩
    · rcases SyncM.mem_ite_trace h2 with ⟨_, h3⟩ | ⟨_, h3⟩
      · rw [SyncM.call_trace] at h3
        simp only [List.mem_singleton] at h3; subst h3; simp [Event.kind]
      · simp [SyncM.ret] at h3
    · rcases SyncM.mem_ite_trace h2 with ⟨_, h3⟩ | ⟨_, h3⟩
      · rw [SyncM.call_trace] at h3
        simp only [List.mem_singleton] at h3; subst h3; simp [Event.kind]
      · simp [SyncM.ret] at h3

theorem processDelegated_kinds (tc : TraktClientResp) (mode : SyncMode)
    (metas : List TraktIDMeta) (des : List DelegatedError) :
    ∀ e ∈ (processDelegated tc mode metas des).1,
      e.kind ∈ [EventKind.logInfo, EventKind.listAdd] := by
  induction des with
  | nil => intro e he; simp [processDelegated, SyncM.ret] at he
  | cons d rest ih =>
    intro e he
    cases d with
    | notFound slug =>
      simp only [processDelegated] at he
      by_cases hm : mode = SyncMode.dryRun
      · rw [if_pos hm] at he
        rcases SyncM.mem_seq_trace he with h1 | ⟨_, _, h1⟩
        · simp only [SyncM.emit, List.mem_singleton] at h1; subst h1; simp [Event.kind]
        · exact ih e h1
      · rw [if_neg hm] at he
        rcases SyncM.mem_seq_trace he with h1 | ⟨_, _, h1⟩
        · rw [SyncM.call_trace] at h1
          simp only [List.mem_singleton] at h1; subst h1; simp [Event.kind]
        · exact ih e h1
    | other msg => simp [processDelegated, SyncM.fail] at he

theorem hydrateLists_kinds (ic : IMDbClientResp) (tc : TraktClientResp)
    (conf : SyncConf) (lids : List String) (u : UserState) :
    ∀ e ∈ (hydrateLists ic tc conf lids u).1,
      e.kind ∈ [EventKind.imdbListsGet, EventKind.traktListsGet,
        EventKind.logInfo, EventKind.listAdd] := by
  intro e he
  unfold hydrateLists at he
  rcases SyncM.mem_ite_trace he with ⟨_, h1⟩ | ⟨_, h1⟩
  · rcases SyncM.mem_seq_trace h1 with h2 | ⟨ls, _, h2⟩
    · rw [SyncM.call_trace] at h2
      simp only [List.mem_singleton] at h2; subst h2; simp [Event.kind]
    · simp only [] at h2
      rcases SyncM.mem_seq_trace h2 with h3 | ⟨_, _, h3⟩
      · simp only [SyncM.emit, List.mem_singleton] at h3; subst h3; simp [Event.kind]
      · rcases SyncM.mem_seq_trace h3 with h4 | ⟨_, _, h4⟩
        · have h5 := processDelegated_kinds tc conf.mode (mkIDMetas ls)
            (tc.listsGet (mkIDMetas ls)).2 e h4
          simp only [List.mem_cons, List.not_mem_nil, or_false] at h5 ⊢
          tauto
        · simp [SyncM.ret] at h4
  · simp [SyncM.ret] at h1

theorem hydrateWatchlist_kinds (ic : IMDbClientResp) (tc : TraktClientResp)
    (conf : SyncConf) (u : UserState) :
    ∀ e ∈ (hydrateWatchlist ic tc conf u).1,
      e.kind ∈ [EventKind.imdbWatchlistGet, EventKind.traktWatchlistGet] := by
  intro e he
  unfold hydrateWatchlist at he
  rcases SyncM.mem_ite_trace he with ⟨_, h1⟩ | ⟨_, h1⟩
  · rcases SyncM.mem_seq_trace h1 with h2 | ⟨_, _, h2⟩
    · rw [SyncM.call_trace] at h2
      simp only [List.mem_singleton] at h2; subst h2; simp [Event.kind]
    · rcases SyncM.mem_seq_trace h2 with h3 | ⟨_, _, h3⟩
      · rw [SyncM.call_trace] at h3
        simp only [List.mem_singleton] at h3; subst h3; simp [Event.kind]
      · simp [SyncM.ret] at h3
  · simp [SyncM.ret] at h1

theorem storeTraktRatings_trace (u : UserState) (rs : List TraktItem) :
    (storeTraktRatings u rs).1 = [] := by
  induction rs generalizing u with
  | nil => rfl
  | cons r rest ih =>
    cases hid : r.getItemID with
    | error e => simp [storeTraktRatings, hid, SyncM.fail]
    | ok o =>
      cases o with
      | none => simp only [storeTraktRatings, hid]; exact ih u
      | some id => simp only [storeTraktRatings, hid]; exact ih _

theorem hydrateRatings_kinds (ic : IMDbClientResp) (tc : TraktClientResp)
    (conf : SyncConf) (u : UserState) :
    ∀ e ∈ (hydrateRatings ic tc conf u).1,
      e.kind ∈ [EventKind.traktRatingsGet, EventKind.imdbRatingsGet] := by
  intro e he
  unfold hydrateRatings at he
  rcases SyncM.mem_ite_trace he with ⟨_, h1⟩ | ⟨_, h1⟩
  · rcases SyncM.mem_seq_trace h1 with h2 | ⟨trs, _, h2⟩
    · rw [SyncM.call_trace] at h2
      simp only [List.mem_singleton] at h2; subst h2; simp [Event.kind]
    · rcases SyncM.mem_seq_trace h2 with h3 | ⟨_, _, h3⟩
      · rw [storeTraktRatings_trace] at h3
        simp at h3
      · rcases SyncM.mem_seq_trace h3 with h4 | ⟨_, _, h4⟩
        · rw [SyncM.call_trace] at h4
          simp only [List.mem_singleton] at h4; subst h4; simp [Event.kind]
        · simp [SyncM.ret] at h4
  · simp [SyncM.ret] at h1

/-- All kinds hydrate can emit. -/
def hydrateKinds : List EventKind :=
  [EventKind.ratingsExport, EventKind.listsExport, EventKind.watchlistExport,
   EventKind.imdbListsGet, EventKind.traktListsGet, EventKind.logInfo,
   EventKind.listAdd, EventKind.imdbWatchlistGet, EventKind.traktWatchlistGet,
   EventKind.traktRatingsGet, EventKind.imdbRatingsGet]

theorem hydrate_kinds (ic : IMDbClientResp) (tc : TraktClientResp)
    (conf : SyncConf) (authless : Bool) (u0 : UserState) :
    ∀ e ∈ (hydrate ic tc conf authless u0).1, e.kind ∈ hydrateKinds := by
  intro e he
  unfold hydrate at he
  rcases SyncM.mem_seq_trace he with h1 | ⟨_, _, h1⟩
  · have h2 := hydrateExports_kinds ic conf _ e h1
    simp only [hydrateKinds, List.mem_cons, List.not_mem_nil, or_false] at h2 ⊢
    tauto
  · rcases SyncM.mem_seq_trace h1 with h2 | ⟨u1, _, h2⟩
    · have h3 := hydrateLists_kinds ic tc conf _ u0 e h2
      simp only [hydrateKinds, List.mem_cons, List.not_mem_nil, or_false] at h3 ⊢
      tauto
    · rcases SyncM.mem_ite_trace h2 with ⟨_, h3⟩ | ⟨_, h3⟩
      · simp [SyncM.ret] at h3
      · rcases SyncM.mem_seq_trace h3 with h4 | ⟨u2, _, h4⟩
        · have h5 := hydrateWatchlist_kinds ic tc conf u1 e h4
          simp only [hydrateKinds, List.mem_cons, List.not_mem_nil, or_false] at h5 ⊢
          tauto
        · have h5 := hydrateRatings_kinds ic tc conf u2 e h4
          simp only [hydrateKinds, List.mem_cons, List.not_mem_nil, or_false] at h5 ⊢
          tauto

/-! ### Remove-call suppression outside full mode -/

theorem not_full_gate {mode : SyncMode} (hm : mode ≠ SyncMode.full) :
    mode = SyncMode.dryRun ∨ mode = SyncMode.addOnly := by
  cases mode with
  | full => exact absurd rfl hm
  | addOnly => exact Or.inr rfl
  | dryRun => exact Or.inl rfl

theorem syncListOne_noRemove (tc : TraktClientResp) (mode : SyncMode)
    (u : UserState) (l : IMDbList) (hm : mode ≠ SyncMode.full) :
    ∀ e ∈ (syncListOne tc mode u l).1, ¬ e.kind ∈ removeKinds := by
  intro e he
  simp only [syncListOne] at he
  have hOr := not_full_gate hm
  cases hl : l.isWatchlist with
  | true =>
    simp only [hl, if_true] at he
    rcases SyncM.mem_seq_trace he with hA | ⟨skipped, _, hB⟩
    · by_cases h1 :
        (ListDiff l ((assocLookup u.traktLists l.listID).getD emptyTraktList)).add.length > 0
      · rw [if_pos h1] at hA
        by_cases h2 : mode = SyncMode.dryRun
        · rw [if_pos h2] at hA
          rcases SyncM.mem_seq_trace hA with h3 | ⟨_, _, h3⟩
          · simp only [SyncM.emit, List.mem_singleton] at h3
            subst h3; simp [Event.kind, removeKinds]
          · simp [SyncM.ret] at h3
        · rw [if_neg h2] at hA
          rcases SyncM.mem_seq_trace hA with h3 | ⟨_, _, h3⟩
          · rw [SyncM.call_trace] at h3
            simp only [List.mem_singleton] at h3
            subst h3; simp [Event.kind, removeKinds]
          · simp [SyncM.ret] at h3
      · rw [if_neg h1] at hA
        simp [SyncM.ret] at hA
    · cases skipped with
      | true => simp [SyncM.ret] at hB
      | false =>
        simp only [Bool.false_eq_true, if_false] at hB
        by_cases h1 :
          (ListDiff l ((assocLookup u.traktLists l.listID).getD emptyTraktList)).remove.length > 0
        · rw [if_pos h1, if_pos hOr] at hB
          simp only [SyncM.emit, List.mem_singleton] at hB
          subst hB; simp [Event.kind, removeKinds]
        · rw [if_neg h1] at hB
          simp [SyncM.ret] at hB
  | false =>
    simp only [hl, Bool.false_eq_true, if_false] at he
    rcases SyncM.mem_seq_trace he with hA | ⟨skipped, _, hB⟩
    · by_cases h1 :
        (ListDiff l ((assocLookup u.traktLists l.listID).getD emptyTraktList)).add.length > 0
      · rw [if_pos h1] at hA
        by_cases h2 : mode = SyncMode.dryRun
        · rw [if_pos h2] at hA
          rcases SyncM.mem_seq_trace hA with h3 | ⟨_, _, h3⟩
          · simp only [SyncM.emit, List.mem_singleton] at h3
            subst h3; simp [Event.kind, removeKinds]
          · simp [SyncM.ret] at h3
        · rw [if_neg h2] at hA
          rcases SyncM.mem_seq_trace hA with h3 | ⟨_, _, h3⟩
          · rw [SyncM.call_trace] at h3
            simp only [List.mem_singleton] at h3
            subst h3; simp [Event.kind, removeKinds]
          · simp [SyncM.ret] at h3
      · rw [if_neg h1] at hA
        simp [SyncM.ret] at hA
    · cases skipped with
      | true => simp [SyncM.ret] at hB
      | false =>
        simp only [Bool.false_eq_true, if_false] at hB
        by_cases h1 :
          (ListDiff l ((assocLookup u.traktLists l.listID).getD emptyTraktList)).remove.length > 0
        · rw [if_pos h1, if_pos hOr] at hB
          simp only [SyncM.emit, List.mem_singleton] at hB
          subst hB; simp [Event.kind, removeKinds]
        · rw [if_neg h1] at hB
          simp [SyncM.ret] at hB

theorem syncListsLoop_noRemove (tc : TraktClientResp) (mode : SyncMode)
    (u : UserState) (ps : List (String × IMDbList))
    (hm : mode ≠ SyncMode.full) :
    ∀ e ∈ (syncListsLoop tc mode u ps).1, ¬ e.kind ∈ removeKinds := by
  induction ps with
  | nil => intro e he; simp [syncListsLoop, SyncM.ret] at he
  | cons p rest ih =>
    intro e he
    simp only [syncListsLoop] at he
    rcases SyncM.mem_seq_trace he with h1 | ⟨_, _, h1⟩
    · exact syncListOne_noRemove tc mode u p.2 hm e h1
    · exact ih e h1

theorem syncLists_noRemove (tc : TraktClientResp) (conf : SyncConf)
    (u : UserState) (hm : conf.mode ≠ SyncMode.full) :
    ∀ e ∈ (syncLists tc conf u).1, ¬ e.kind ∈ removeKinds := by
  intro e he
  unfold syncLists at he
  rcases SyncM.mem_seq_trace he with h1 | ⟨_, _, h1⟩
  · rcases SyncM.mem_ite_trace h1 with ⟨_, h2⟩ | ⟨_, h2⟩
    · simp only [SyncM.emit, List.mem_singleton] at h2
      subst h2; simp [Event.kind, removeKinds]
    · simp [SyncM.ret] at h2
  · rcases SyncM.mem_seq_trace h1 with h2 | ⟨_, _, h2⟩
    · rcases SyncM.mem_ite_trace h2 with ⟨_, h3⟩ | ⟨_, h3⟩
      · simp only [SyncM.emit, List.mem_singleton] at h3
        subst h3; simp [Event.kind, removeKinds]
      · simp [SyncM.ret] at h3
    · rcases SyncM.mem_ite_trace h2 with ⟨_, h3⟩ | ⟨_, h3⟩
      · simp [SyncM.ret] at h3
      · exact syncListsLoop_noRemove tc conf.mode u u.imdbLists hm e h3

theorem syncRatings_noRemove (tc : TraktClientResp) (conf : SyncConf)
    (authless : Bool) (u : UserState) (hm : conf.mode ≠ SyncMode.full) :
    ∀ e ∈ (syncRatings tc conf authless u).1, ¬ e.kind ∈ removeKinds := by
  intro e he
  have hOr := not_full_gate hm
  unfold syncRatings at he
  cases authless with
  | true =>
    simp only [if_true, SyncM.emit, List.mem_singleton] at he
    subst he; simp [Event.kind, removeKinds]
  | false =>
    simp only [Bool.false_eq_true, if_false] at he
    by_cases hr : (!conf.ratings) = true
    · rw [if_pos hr] at he
      simp only [SyncM.emit, List.mem_singleton] at he
      subst he; simp [Event.kind, removeKinds]
    · rw [if_neg hr] at he
      rcases SyncM.mem_seq_trace he with h1 | ⟨_, _, h1⟩
      · by_cases h2 :
          (ItemsDifference u.imdbRatings u.traktRatings).add.length > 0
        · rw [if_pos h2] at h1
          by_cases h3 : conf.mode = SyncMode.dryRun
          · rw [if_pos h3] at h1
            simp only [SyncM.emit, List.mem_singleton] at h1
            subst h1; simp [Event.kind, removeKinds]
          · rw [if_neg h3] at h1
            rw [SyncM.call_trace] at h1
            simp only [List.mem_singleton] at h1
            subst h1; simp [Event.kind, removeKinds]
        · rw [if_neg h2] at h1
          simp [SyncM.ret] at h1
      · by_cases h2 :
          (ItemsDifference u.imdbRatings u.traktRatings).remove.length > 0
        · rw [if_pos h2, if_pos hOr] at h1
          simp only [SyncM.emit, List.mem_singleton] at h1
          subst h1; simp [Event.kind, removeKinds]
        · rw [if_neg h2] at h1
          simp [SyncM.ret] at h1

theorem collectHistoryAdd_kinds (tc : TraktClientResp)
    (l : List TraktItem) :
    ∀ e ∈ (collectHistoryAdd tc l).1, e.kind = EventKind.historyGet := by
  induction l with
  | nil => intro e he; simp [collectHistoryAdd, SyncM.ret] at he
  | cons it rest ih =>
    intro e he
    simp only [collectHistoryAdd] at he
    cases hid : it.getItemID with
    | error er => rw [hid] at he; simp [SyncM.fail] at he
    | ok o =>
      cases o with
      | none => rw [hid] at he; simp [SyncM.fail] at he
      | some id =>
        rw [hid] at he
        rcases SyncM.mem_seq_trace he with h1 | ⟨history, _, h1⟩
        · rw [SyncM.call_trace] at h1
          simp only [List.mem_singleton] at h1
          subst h1; simp [Event.kind]
        · by_cases h2 : history.length > 0
          · rw [if_pos h2] at h1
            exact ih e h1
          · rw [if_neg h2] at h1
            rcases SyncM.mem_seq_trace h1 with h3 | ⟨_, _, h3⟩
            · exact ih e h3
            · simp [SyncM.ret] at h3

theorem collectHistoryRemove_kinds (tc : TraktClientResp)
    (l : List TraktItem) :
    ∀ e ∈ (collectHistoryRemove tc l).1, e.kind = EventKind.historyGet := by
  induction l with
  | nil => intro e he; simp [collectHistoryRemove, SyncM.ret] at he
  | cons it rest ih =>
    intro e he
    simp only [collectHistoryRemove] at he
    cases hid : it.getItemID with
    | error er => rw [hid] at he; simp [SyncM.fail] at he
    | ok o =>
      cases o with
      | none => rw [hid] at he; simp [SyncM.fail] at he
      | some id =>
        rw [hid] at he
        rcases SyncM.mem_seq_trace he with h1 | ⟨history, _, h1⟩
        · rw [SyncM.call_trace] at h1
          simp only [List.mem_singleton] at h1
          subst h1; simp [Event.kind]
        · by_cases h2 : history.length = 0
          · rw [if_pos h2] at h1
            exact ih e h1
          · rw [if_neg h2] at h1
            rcases SyncM.mem_seq_trace h1 with h3 | ⟨_, _, h3⟩
            · exact ih e h3
            · simp [SyncM.ret] at h3

theorem syncHistory_noRemove (tc : TraktClientResp) (conf : SyncConf)
    (authless : Bool) (u : UserState) (hm : conf.mode ≠ SyncMode.full) :
    ∀ e ∈ (syncHistory tc conf authless u).1, ¬ e.kind ∈ removeKinds := by
  intro e he
  have hOr := not_full_gate hm
  unfold syncHistory at he
  cases authless with
  | true =>
    simp only [if_true, SyncM.emit, List.mem_singleton] at he
    subst he; simp [Event.kind, removeKinds]
  | false =>
    simp only [Bool.false_eq_true, if_false] at he
    by_cases hh : (!conf.history) = true
    · rw [if_pos hh] at he
      simp only [SyncM.emit, List.mem_singleton] at he
      subst he; simp [Event.kind, removeKinds]
    · rw [if_neg hh] at he
      rcases SyncM.mem_seq_trace he with h1 | ⟨_, _, h1⟩
      · by_cases h2 :
          (ItemsDifference u.imdbRatings u.traktRatings).add.length > 0
        · rw [if_pos h2] at h1
          rcases SyncM.mem_seq_trace h1 with h3 | ⟨hta, _, h3⟩
          · have h4 := collectHistoryAdd_kinds tc _ e h3
            rw [h4]; simp [removeKinds]
          · by_cases h4 : hta.length > 0
            · rw [if_pos h4] at h3
              by_cases h5 : conf.mode = SyncMode.dryRun
              · rw [if_pos h5] at h3
                simp only [SyncM.emit, List.mem_singleton] at h3
                subst h3; simp [Event.kind, removeKinds]
              · rw [if_neg h5] at h3
                rw [SyncM.call_trace] at h3
                simp only [List.mem_singleton] at h3
                subst h3; simp [Event.kind, removeKinds]
            · rw [if_neg h4] at h3
              simp [SyncM.ret] at h3
        · rw [if_neg h2] at h1
          simp [SyncM.ret] at h1
      · by_cases h2 :
          (ItemsDifference u.imdbRatings u.traktRatings).remove.length > 0
        · rw [if_pos h2] at h1
          rcases SyncM.mem_seq_trace h1 with h3 | ⟨htr, _, h3⟩
          · have h4 := collectHistoryRemove_kinds tc _ e h3
            rw [h4]; simp [removeKinds]
          · by_cases h4 : htr.length > 0
            · rw [if_pos h4, if_pos hOr] at h3
              simp only [SyncM.emit, List.mem_singleton] at h3
              subst h3; simp [Event.kind, removeKinds]
            · rw [if_neg h4] at h3
              simp [SyncM.ret] at h3
        · rw [if_neg h2] at h1
          simp [SyncM.ret] at h1

theorem mem_stage_trace {x : SyncM α} {m : String} {k : α → SyncM Unit}
    {e : Event} (h : e ∈ (stage x m k).1) :
    e ∈ x.1 ∨ (∃ a, x.2 = Except.ok a ∧ e ∈ (k a).1) ∨
      ∃ err, e = Event.logError m err := by
  obtain ⟨tr, r⟩ := x
  cases r with
  | ok a =>
    rcases List.mem_append.mp h with h1 | h2
    · exact Or.inl h1
    · exact Or.inr (Or.inl ⟨a, rfl, h2⟩)
  | error er =>
    rcases List.mem_append.mp h with h1 | h2
    · exact Or.inl h1
    · simp only [List.mem_singleton] at h2
      exact Or.inr (Or.inr ⟨er, h2⟩)

theorem Sync_noRemove (ic : IMDbClientResp) (tc : TraktClientResp)
    (conf : SyncConf) (authless : Bool) (u0 : UserState)
    (hm : conf.mode ≠ SyncMode.full) :
    ∀ e ∈ (Sync ic tc conf authless u0).1, ¬ e.kind ∈ removeKinds := by
  intro e he
  unfold Sync at he
  rcases SyncM.mem_seq_trace he with h1 | ⟨_, _, h1⟩
  · simp only [SyncM.emit, List.mem_singleton] at h1
    subst h1; simp [Event.kind, removeKinds]
  · rcases mem_stage_trace h1 with h2 | ⟨u1, _, h2⟩ | ⟨err, h2⟩
    · intro hk
      have h3 := hydrate_kinds ic tc conf authless u0 e h2
      cases e <;> simp [Event.kind, hydrateKinds, removeKinds] at h3 hk
    · rcases mem_stage_trace h2 with h3 | ⟨_, _, h3⟩ | ⟨err, h3⟩
      · exact syncLists_noRemove tc conf u1 hm e h3
      · rcases mem_stage_trace h3 with h4 | ⟨_, _, h4⟩ | ⟨err, h4⟩
        · exact syncRatings_noRemove tc conf authless u1 hm e h4
        · rcases mem_stage_trace h4 with h5 | ⟨_, _, h5⟩ | ⟨err, h5⟩
          · exact syncHistory_noRemove tc conf authless u1 hm e h5
          · simp only [SyncM.emit, List.mem_singleton] at h5
            subst h5; simp [Event.kind, removeKinds]
          · subst h5; simp [Event.kind, removeKinds]
        · subst h4; simp [Event.kind, removeKinds]
      · subst h3; simp [Event.kind, removeKinds]
    · subst h2; simp [Event.kind, removeKinds]

/-! ### Exactly one remove invocation per action site in full mode -/

theorem syncRatings_remove_once (tc : TraktClientResp) (conf : SyncConf)
    (u : UserState) (hmode : conf.mode = SyncMode.full)
    (hrat : conf.ratings = true)
    (hrem : (ItemsDifference u.imdbRatings u.traktRatings).remove ≠ [])
    (hadd : tc.ratingsAdd (ItemsDifference u.imdbRatings u.traktRatings).add =
      Except.ok ()) :
    countKind EventKind.ratingsRemove (syncRatings tc conf false u).1 = 1 := by
  have ha2 : (ItemsDifference u.imdbRatings u.traktRatings).remove.length > 0 :=
    List.length_pos.mpr hrem
  unfold syncRatings
  by_cases ha : (ItemsDifference u.imdbRatings u.traktRatings).add.length > 0
  · cases hrr : tc.ratingsRemove (ItemsDifference u.imdbRatings u.traktRatings).remove with
    | ok a =>
      simp [hrat, hmode, ha, ha2, SyncM.call_of_ok hadd, SyncM.call_of_ok hrr,
        SyncM.seq, countKind, Event.kind]
    | error er =>
      simp [hrat, hmode, ha, ha2, SyncM.call_of_ok hadd, SyncM.call_of_error hrr,
        SyncM.seq, countKind, Event.kind]
  · cases hrr : tc.ratingsRemove (ItemsDifference u.imdbRatings u.traktRatings).remove with
    | ok a =>
      simp [hrat, hmode, ha, ha2, SyncM.ret, SyncM.call_of_ok hrr,
        SyncM.seq, countKind, Event.kind]
    | error er =>
      simp [hrat, hmode, ha, ha2, SyncM.ret, SyncM.call_of_error hrr,
        SyncM.seq, countKind, Event.kind]

theorem syncListOne_remove_once (tc : TraktClientResp) (u : UserState)
    (l : IMDbList)
    (hrem : (ListDiff l
      ((assocLookup u.traktLists l.listID).getD emptyTraktList)).remove ≠ [])
    (haddW : tc.watchlistItemsAdd (ListDiff l
      ((assocLookup u.traktLists l.listID).getD emptyTraktList)).add =
      Except.ok ())
    (haddL : tc.listItemsAdd (InferTraktListSlug l.listName) (ListDiff l
      ((assocLookup u.traktLists l.listID).getD emptyTraktList)).add =
      Except.ok ()) :
    countKind
      (if l.isWatchlist then EventKind.watchlistItemsRemove
       else EventKind.listItemsRemove)
      (syncListOne tc SyncMode.full u l).1 = 1 := by
  have ha2 : (ListDiff l
      ((assocLookup u.traktLists l.listID).getD emptyTraktList)).remove.length > 0 :=
    List.length_pos.mpr hrem
  unfold syncListOne
  cases hl : l.isWatchlist with
  | true =>
    by_cases ha : (ListDiff l
        ((assocLookup u.traktLists l.listID).getD emptyTraktList)).add.length > 0
    · cases hrr : tc.watchlistItemsRemove (ListDiff l
          ((assocLookup u.traktLists l.listID).getD emptyTraktList)).remove with
      | ok a =>
        simp [hl, ha, ha2, SyncM.call_of_ok haddW, SyncM.call_of_ok hrr,
          SyncM.seq, SyncM.ret, countKind, Event.kind]
      | error er =>
        simp [hl, ha, ha2, SyncM.call_of_ok haddW, SyncM.call_of_error hrr,
          SyncM.seq, SyncM.ret, countKind, Event.kind]
    · cases hrr : tc.watchlistItemsRemove (ListDiff l
          ((assocLookup u.traktLists l.listID).getD emptyTraktList)).remove with
      | ok a =>
        simp [hl, ha, ha2, SyncM.ret, SyncM.call_of_ok hrr,
          SyncM.seq, countKind, Event.kind]
      | error er =>
        simp [hl, ha, ha2, SyncM.ret, SyncM.call_of_error hrr,
          SyncM.seq, countKind, Event.kind]
  | false =>
    by_cases ha : (ListDiff l
        ((assocLookup u.traktLists l.listID).getD emptyTraktList)).add.length > 0
    · cases hrr : tc.listItemsRemove (InferTraktListSlug l.listName) (ListDiff l
          ((assocLookup u.traktLists l.listID).getD emptyTraktList)).remove with
      | ok a =>
        simp [hl, ha, ha2, SyncM.call_of_ok haddL, SyncM.call_of_ok hrr,
          SyncM.seq, SyncM.ret, countKind, Event.kind]
      | error er =>
        simp [hl, ha, ha2, SyncM.call_of_ok haddL, SyncM.call_of_error hrr,
          SyncM.seq, SyncM.ret, countKind, Event.kind]
    · cases hrr : tc.listItemsRemove (InferTraktListSlug l.listName) (ListDiff l
          ((assocLookup u.traktLists l.listID).getD emptyTraktList)).remove with
      | ok a =>
        simp [hl, ha, ha2, SyncM.ret, SyncM.call_of_ok hrr,
          SyncM.seq, countKind, Event.kind]
      | error er =>
        simp [hl, ha, ha2, SyncM.ret, SyncM.call_of_error hrr,
          SyncM.seq, countKind, Event.kind]

theorem countKind_historyRemove_collectAdd (tc : TraktClientResp)
    (l : List TraktItem) :
    countKind EventKind.historyRemove (collectHistoryAdd tc l).1 = 0 := by
  apply countKind_eq_zero
  intro e he
  rw [collectHistoryAdd_kinds tc l e he]
  simp

theorem countKind_historyRemove_collectRemove (tc : TraktClientResp)
    (l : List TraktItem) :
    countKind EventKind.historyRemove (collectHistoryRemove tc l).1 = 0 := by
  apply countKind_eq_zero
  intro e he
  rw [collectHistoryRemove_kinds tc l e he]
  simp

theorem syncHistory_remove_once (tc : TraktClientResp) (conf : SyncConf)
    (u : UserState) (hmode : conf.mode = SyncMode.full)
    (hhist : conf.history = true) (trA trR : List Event)
    (hta htr : List TraktItem)
    (hca : collectHistoryAdd tc (ItemsDifference u.imdbRatings u.traktRatings).add =
      (trA, Except.ok hta))
    (hadd : tc.historyAdd hta = Except.ok ())
    (hcr : collectHistoryRemove tc
      (ItemsDifference u.imdbRatings u.traktRatings).remove =
      (trR, Except.ok htr))
    (hhtr : htr ≠ []) :
    countKind EventKind.historyRemove (syncHistory tc conf false u).1 = 1 := by
  have hrem : (ItemsDifference u.imdbRatings u.traktRatings).remove ≠ [] := by
    intro h0
    rw [h0] at hcr
    have : htr = [] := by
      have h2 := congrArg Prod.snd hcr
      simp only [collectHistoryRemove, SyncM.ret] at h2
      exact (Except.ok.injEq _ _).mp h2.symm
    exact hhtr this
  have ha2 : (ItemsDifference u.imdbRatings u.traktRatings).remove.length > 0 :=
    List.length_pos.mpr hrem
  have hht : htr.length > 0 := List.length_pos.mpr hhtr
  have hcntA := countKind_historyRemove_collectAdd tc
    (ItemsDifference u.imdbRatings u.traktRatings).add
  have hcntR := countKind_historyRemove_collectRemove tc
    (ItemsDifference u.imdbRatings u.traktRatings).remove
  rw [hca] at hcntA
  rw [hcr] at hcntR
  have hcA : countKind EventKind.historyRemove trA = 0 := hcntA
  have hcR : countKind EventKind.historyRemove trR = 0 := hcntR
  unfold syncHistory
  by_cases ha : (ItemsDifference u.imdbRatings u.traktRatings).add.length > 0
  · by_cases hh4 : hta.length > 0
    · cases hrr : tc.historyRemove htr with
      | ok a =>
        simp [hhist, hmode, ha, ha2, hh4, hht, hca, hcr, SyncM.call_of_ok hadd,
          SyncM.call_of_ok hrr, SyncM.seq, SyncM.ret, countKind_append,
          countKind_singleton, countKind_nil, countKind_cons, Event.kind, hcA, hcR]
      | error er =>
        simp [hhist, hmode, ha, ha2, hh4, hht, hca, hcr, SyncM.call_of_ok hadd,
          SyncM.call_of_error hrr, SyncM.seq, SyncM.ret, countKind_append,
          countKind_singleton, countKind_nil, countKind_cons, Event.kind, hcA, hcR]
    · cases hrr : tc.historyRemove htr with
      | ok a =>
        simp [hhist, hmode, ha, ha2, hh4, hht, hca, hcr,
          SyncM.call_of_ok hrr, SyncM.seq, SyncM.ret, countKind_append,
          countKind_singleton, countKind_nil, countKind_cons, Event.kind, hcA, hcR]
      | error er =>
        simp [hhist, hmode, ha, ha2, hh4, hht, hca, hcr,
          SyncM.call_of_error hrr, SyncM.seq, SyncM.ret, countKind_append,
          countKind_singleton, countKind_nil, countKind_cons, Event.kind, hcA, hcR]
  · have hta0 : hta = [] := by
      have h3 : (ItemsDifference u.imdbRatings u.traktRatings).add = [] := by
        rcases List.eq_nil_or_concat (ItemsDifference u.imdbRatings u.traktRatings).add
          with h | ⟨_, _, h⟩
        · exact h
        · exfalso; apply ha; rw [h]; simp
      rw [h3] at hca
      have h2 := congrArg Prod.snd hca
      simp only [collectHistoryAdd, SyncM.ret] at h2
      exact ((Except.ok.injEq _ _).mp h2.symm)
    cases hrr : tc.historyRemove htr with
    | ok a =>
      simp [hhist, hmode, ha, ha2, hht, hca, hcr,
        SyncM.call_of_ok hrr, SyncM.seq, SyncM.ret, countKind_append,
        countKind_singleton, countKind_nil, countKind_cons, Event.kind, hcA, hcR]
    | error er =>
      simp [hhist, hmode, ha, ha2, hht, hca, hcr,
        SyncM.call_of_error hrr, SyncM.seq, SyncM.ret, countKind_append,
        countKind_singleton, countKind_nil, countKind_cons, Event.kind, hcA, hcR]

/-! ### Concrete fixtures for counterexamples and witnesses -/

/-- A mirror client whose every operation succeeds and whose reads return
empty data. -/
def tcOkBase : TraktClientResp :=
  { listsGet := fun _ => ([], []),
    listAdd := fun _ _ => Except.ok (),
    watchlistGet := Except.ok emptyTraktList,
    ratingsGet := Except.ok [],
    watchlistItemsAdd := fun _ => Except.ok (),
    watchlistItemsRemove := fun _ => Except.ok (),
    listItemsAdd := fun _ _ => Except.ok (),
    listItemsRemove := fun _ _ => Except.ok (),
    ratingsAdd := fun _ => Except.ok (),
    ratingsRemove := fun _ => Except.ok (),
    historyGet := fun _ _ => Except.ok [],
    historyAdd := fun _ => Except.ok (),
    historyRemove := fun _ => Except.ok () }

/-- A source client whose every operation succeeds and whose reads return
empty data. -/
def icOkBase : IMDbClientResp :=
  { ratingsExport := Except.ok (), listsExport := fun _ => Except.ok (),
    watchlistExport := Except.ok (),
    listsGet := fun _ => Except.ok [],
    watchlistGet := Except.ok (stubIMDbList "wl"),
    ratingsGet := Except.ok [] }

/-- Source client returning two named lists with one item each. -/
def icC1 : IMDbClientResp :=
  { icOkBase with listsGet :=
      (fun _ => Except.ok
        [{ listID := "l1", listName := "A", isWatchlist := false,
           listItems := [{ id := "tt1", titleType := "movie", rating := 8 }] },
         { listID := "l2", listName := "B", isWatchlist := false,
           listItems := [{ id := "tt2", titleType := "movie", rating := 7 }] }]) }

/-- Mirror client returning both corresponding lists, each holding one item
absent from the source, so both diffs get a non-empty Remove set. -/
def tcC1 : TraktClientResp :=
  { tcOkBase with listsGet :=
      (fun _ =>
        ([{ idMeta := { imdb := "l1", slug := "a", listName := "A" },
            listItems := [{ itemType := "movie", imdbID := "tt9" }] },
          { idMeta := { imdb := "l2", slug := "b", listName := "B" },
            listItems := [{ itemType := "movie", imdbID := "tt8" }] }], [])) }

/-- Full-mode configuration syncing named lists only. -/
def confC1 : SyncConf :=
  { lists := true, watchlist := false, ratings := false, history := false,
    mode := SyncMode.full }

/-- Dry-run configuration with every domain disabled. -/
def confDry : SyncConf :=
  { lists := false, watchlist := false, ratings := false, history := false,
    mode := SyncMode.dryRun }

/-- Full-mode configuration syncing ratings only. -/
def confFullR : SyncConf :=
  { lists := false, watchlist := false, ratings := true, history := false,
    mode := SyncMode.full }

/-- A hydrated state whose ratings diff has an empty Add set and the single
mirror-only item in its Remove set. -/
def uRatW : UserState :=
  { imdbLists := [], imdbRatings := [], traktLists := [],
    traktRatings := [("tt1", { itemType := "movie", imdbID := "tt1" })] }

/-! ### C1 -/

/-- C1 counterexample: a full-mode run over two named lists, each with a
non-empty computed Remove set, invokes the mirror's named-list remove
operation twice in one run — not exactly once for the named-lists domain as
the claim states. -/
theorem C1_counterexample :
    confC1.mode = SyncMode.full ∧
    filterKinds [EventKind.listItemsRemove]
      (Sync icC1 tcC1 confC1 false (initialUser confC1 ["l1", "l2"])).1 =
      [Event.listItemsRemove "a" [{ itemType := "movie", imdbID := "tt9" }],
       Event.listItemsRemove "b" [{ itemType := "movie", imdbID := "tt8" }]] ∧
    countKind EventKind.listItemsRemove
      (Sync icC1 tcC1 confC1 false (initialUser confC1 ["l1", "l2"])).1 = 2 := by
  refine ⟨rfl, ?_, ?_⟩ <;> decide

/-- C1 (amended): whenever a computed Remove set is non-empty, dry-run and
add-only modes never invoke any of the mirror's remove operations anywhere in
the run; full mode invokes the remove operation exactly once per action site —
once per run in the ratings stage and in the history stage, and once per
processed list (watchlist or named list) in the list stage, so a run over
several named lists issues one remove call per list with a non-empty Remove
set rather than one per domain. -/
theorem C1_mode_gate (ic : IMDbClientResp) (tc : TraktClientResp)
    (conf : SyncConf) (authless : Bool) (u0 u : UserState) (l : IMDbList) :
    (conf.mode ≠ SyncMode.full →
      removeKindEvents (Sync ic tc conf authless u0).1 = []) ∧
    (conf.mode = SyncMode.full →
      ((ListDiff l
          ((assocLookup u.traktLists l.listID).getD emptyTraktList)).remove ≠ [] →
        tc.watchlistItemsAdd (ListDiff l
          ((assocLookup u.traktLists l.listID).getD emptyTraktList)).add =
          Except.ok () →
        tc.listItemsAdd (InferTraktListSlug l.listName) (ListDiff l
          ((assocLookup u.traktLists l.listID).getD emptyTraktList)).add =
          Except.ok () →
        countKind
          (if l.isWatchlist then EventKind.watchlistItemsRemove
           else EventKind.listItemsRemove)
          (syncListOne tc conf.mode u l).1 = 1) ∧
      (conf.ratings = true →
        (ItemsDifference u.imdbRatings u.traktRatings).remove ≠ [] →
        tc.ratingsAdd (ItemsDifference u.imdbRatings u.traktRatings).add =
          Except.ok () →
        countKind EventKind.ratingsRemove (syncRatings tc conf false u).1 = 1) ∧
      (conf.history = true →
        ∀ trA hta trR htr,
          collectHistoryAdd tc
            (ItemsDifference u.imdbRatings u.traktRatings).add =
            (trA, Except.ok hta) →
          tc.historyAdd hta = Except.ok () →
          collectHistoryRemove tc
            (ItemsDifference u.imdbRatings u.traktRatings).remove =
            (trR, Except.ok htr) →
          htr ≠ [] →
          countKind EventKind.historyRemove
            (syncHistory tc conf false u).1 = 1)) := by
  constructor
  · intro hm
    exact filterKinds_eq_nil
      (fun e he => Sync_noRemove ic tc conf authless u0 hm e he)
  · intro hmode
    refine ⟨?_, ?_, ?_⟩
    · intro h1 h2 h3
      rw [hmode]
      exact syncListOne_remove_once tc u l h1 h2 h3
    · intro hr h1 h2
      exact syncRatings_remove_once tc conf u hmode hr h1 h2
    · intro hh trA hta trR htr h1 h2 h3 h4
      exact syncHistory_remove_once tc conf u hmode hh trA trR hta htr h1 h2 h3 h4

/-- C1 witness: a dry-run run issues no remove calls, and a concrete full-mode
ratings stage with a one-item Remove set issues exactly one ratings-remove
call. -/
theorem C1_mode_gate_witness :
    removeKindEvents
      (Sync icOkBase tcOkBase confDry false (initialUser confDry [])).1 = [] ∧
    countKind EventKind.ratingsRemove
      (syncRatings tcOkBase confFullR false uRatW).1 = 1 := by
  constructor
  · exact (C1_mode_gate icOkBase tcOkBase confDry false (initialUser confDry [])
      uRatW (stubIMDbList "x")).1 (by decide)
  · exact (((C1_mode_gate icOkBase tcOkBase confFullR false
      (initialUser confFullR []) uRatW (stubIMDbList "x")).2 rfl).2.1 rfl
      (by decide) rfl)

/-! ### C2 -/

/-- Source list with one item for the C2 failing input. -/
def lC2 : IMDbList :=
  { listID := "l1", listName := "My List", isWatchlist := false,
    listItems := [{ id := "tt1", titleType := "movie", rating := 7 }] }

/-- Hydrated state for the C2 failing input: the mirror list holds one item
absent from the source, so the diff has Add = [tt1] and Remove = [tt2]. -/
def uC2 : UserState :=
  { imdbLists := [("l1", lC2)], imdbRatings := [],
    traktLists := [("l1",
      { idMeta := { imdb := "l1", slug := "my-list", listName := "My List" },
        listItems := [{ itemType := "movie", imdbID := "tt2" }] })],
    traktRatings := [] }

/-- Dry-run configuration with list sync enabled. -/
def confC2 : SyncConf :=
  { lists := true, watchlist := true, ratings := false, history := false,
    mode := SyncMode.dryRun }

/-- C2: at a dry-run input whose list diff has a non-empty Add set and a
non-empty Remove set, the code executes no mutating call but logs only the Add
set — the whole trace is the single add log entry, so the Remove set is never
logged, because the dry-run add branch `continue`s past the remove block
(syncer.go lines 195-198 and 218-221). -/
theorem C2_code_divergence :
    (ListDiff lC2
      ((assocLookup uC2.traktLists lC2.listID).getD emptyTraktList)).add =
      [{ itemType := "movie", imdbID := "tt1" }] ∧
    (ListDiff lC2
      ((assocLookup uC2.traktLists lC2.listID).getD emptyTraktList)).remove =
      [{ itemType := "movie", imdbID := "tt2" }] ∧
    (syncLists tcOkBase confC2 uC2).1 =
      [Event.logInfoP "sync mode dry-run would have added 1 trakt list item(s)"
        "my-list" [{ itemType := "movie", imdbID := "tt1" }]] ∧
    (syncLists tcOkBase confC2 uC2).2 = Except.ok () := by
  exact ⟨by decide, by decide, by decide, rfl⟩

/-! ### C3 -/

/-- The identity derivation never yields a missing identifier without an
error. -/
theorem getItemID_ne_ok_none (it : TraktItem) :
    it.getItemID ≠ Except.ok none := by
  unfold TraktItem.getItemID
  by_cases h : it.itemType = "movie" ∨ it.itemType = "show" ∨
      it.itemType = "season" ∨ it.itemType = "episode"
  · rw [if_pos h]; simp
  · rw [if_neg h]; simp

theorem SyncM.ret_inv {a b : α} {tr : List Event}
    (h : SyncM.ret a = (tr, Except.ok b)) : tr = [] ∧ b = a := by
  have h1 := congrArg Prod.fst h
  have h2 := congrArg Prod.snd h
  refine ⟨h1.symm, ?_⟩
  have h3 : Except.ok (ε := String) a = Except.ok b := h2
  injection h3 with h4
  exact h4.symm

theorem assocLookup_nil (k : String) :
    assocLookup ([] : List (String × α)) k = none := rfl

theorem assocLookup_cons (p : String × α) (rest : List (String × α))
    (k : String) :
    assocLookup (p :: rest) k =
      if p.1 = k then some p.2 else assocLookup rest k := by
  by_cases h : p.1 = k
  · simp [assocLookup, List.find?_cons_of_pos, h]
  · simp only [assocLookup, h, if_false]
    rw [List.find?_cons_of_neg]
    simp [h]

theorem assocLookup_insert (l : List (String × α)) (k' : String) (v : α)
    (k : String) :
    assocLookup (assocInsert l k' v) k =
      if k' = k then some v else assocLookup l k := by
  induction l with
  | nil =>
    simp [assocInsert, assocLookup_cons, assocLookup_nil]
  | cons p rest ih =>
    simp only [assocInsert]
    by_cases hp : p.1 = k' <;> by_cases h : k' = k <;>
      by_cases hpk : p.1 = k <;>
      simp_all [assocLookup_cons, ih]

/-- An equation form of the cons case of `storeTraktRatings`. -/
theorem storeTraktRatings_cons (u : UserState) (r : TraktItem)
    (rest : List TraktItem) :
    storeTraktRatings u (r :: rest) =
      match r.getItemID with
      | Except.error e => SyncM.fail ("failure fetching trakt item id: " ++ e)
      | Except.ok none => storeTraktRatings u rest
      | Except.ok (some id) =>
        storeTraktRatings
          { u with traktRatings := assocInsert u.traktRatings id r } rest := by
  rfl

/-- Success of the mirror-ratings storage loop keeps every already-present
key present. -/
theorem storeTraktRatings_mono {u : UserState} {rs : List TraktItem}
    {tr : List Event} {u' : UserState}
    (h : storeTraktRatings u rs = (tr, Except.ok u')) (k : String)
    (hk : (assocLookup u.traktRatings k).isSome) :
    (assocLookup u'.traktRatings k).isSome := by
  induction rs generalizing u with
  | nil =>
    rcases SyncM.ret_inv h with ⟨_, h2⟩
    rw [h2]; exact hk
  | cons r rest ih =>
    rw [storeTraktRatings_cons] at h
    cases hid : r.getItemID with
    | error e =>
      rw [hid] at h
      exact absurd (congrArg Prod.snd h) (by simp [SyncM.fail])
    | ok o =>
      cases o with
      | none => exact absurd hid (getItemID_ne_ok_none r)
      | some id =>
        rw [hid] at h
        refine ih h ?_
        rw [assocLookup_insert]
        by_cases hk2 : id = k
        · simp [hk2]
        · simp only [hk2, if_false]; exact hk

/-- C3 core invariant: on success of the mirror-ratings storage loop, every
fetched item's identity was derived and its key is present in the resulting
mirror ratings map. -/
theorem storeTraktRatings_mem {u : UserState} {rs : List TraktItem}
    {tr : List Event} {u' : UserState}
    (h : storeTraktRatings u rs = (tr, Except.ok u')) :
    ∀ r ∈ rs, ∃ id, r.getItemID = Except.ok (some id) ∧
      (assocLookup u'.traktRatings id).isSome := by
  induction rs generalizing u with
  | nil => intro r hr; simp at hr
  | cons r0 rest ih =>
    intro r hr
    rw [storeTraktRatings_cons] at h
    cases hid : r0.getItemID with
    | error e =>
      rw [hid] at h
      exact absurd (congrArg Prod.snd h) (by simp [SyncM.fail])
    | ok o =>
      cases o with
      | none => exact absurd hid (getItemID_ne_ok_none r0)
      | some id =>
        rw [hid] at h
        rcases List.mem_cons.mp hr with rfl | hr2
        · refine ⟨id, hid, storeTraktRatings_mono h id ?_⟩
          rw [assocLookup_insert]
          simp
        · exact ih h r hr2

/-- On success of the ratings block, the mirror ratings of the resulting state
are those produced by the storage loop on the fetched mirror ratings. -/
theorem hydrateRatings_store {ic : IMDbClientResp} {tc : TraktClientResp}
    {conf : SyncConf} {u : UserState} {tr : List Event} {u' : UserState}
    {rs : List TraktItem}
    (hrat : conf.ratings = true)
    (hrg : tc.ratingsGet = Except.ok rs)
    (h : hydrateRatings ic tc conf u = (tr, Except.ok u')) :
    ∃ trS u3, storeTraktRatings u rs = (trS, Except.ok u3) ∧
      u'.traktRatings = u3.traktRatings := by
  unfold hydrateRatings at h
  rw [hrat] at h
  simp only [if_true] at h
  rcases SyncM.seq_eq_ok h with ⟨tr1, trs, tr2, h1, h2, rfl⟩
  rcases SyncM.call_ok_inv h1 with ⟨rfl, hresp⟩
  rw [hrg] at hresp
  injection hresp with htrs
  subst htrs
  rcases SyncM.seq_eq_ok h2 with ⟨trS, u3, tr3, h3, h4, rfl⟩
  rcases SyncM.seq_eq_ok h4 with ⟨tr4, irs, tr5, h5, h6, rfl⟩
  rcases SyncM.ret_inv h6 with ⟨rfl, h7⟩
  exact ⟨trS, u3, h3, by rw [h7]⟩

/-- Success of hydrate with credentials decomposes through a successful
ratings block. -/
theorem hydrate_ratings_part {ic : IMDbClientResp} {tc : TraktClientResp}
    {conf : SyncConf} {u0 : UserState} {tr : List Event} {u' : UserState}
    (h : hydrate ic tc conf false u0 = (tr, Except.ok u')) :
    ∃ u2 trR, hydrateRatings ic tc conf u2 = (trR, Except.ok u') := by
  unfold hydrate at h
  rcases SyncM.seq_eq_ok h with ⟨tr1, _, tr2, h1, h2, rfl⟩
  rcases SyncM.seq_eq_ok h2 with ⟨tr3, u1, tr4, h3, h4, rfl⟩
  simp only [Bool.false_eq_true, if_false] at h4
  rcases SyncM.seq_eq_ok h4 with ⟨tr5, u2, tr6, h5, h6, rfl⟩
  exact ⟨u2, tr6, h6⟩

/-- C3: whenever a run's hydration succeeds with ratings enabled and
credentials present, every rating item fetched from the mirror had a concrete
typed identity derived and is stored in the mirror ratings map under that
identity; by contraposition, a fetched item whose identity cannot be derived
makes hydrate (and hence the run) abort, so no fetched rating item is silently
dropped. -/
theorem C3_no_silent_drop (ic : IMDbClientResp) (tc : TraktClientResp)
    (conf : SyncConf) (u0 : UserState) (rs : List TraktItem)
    (tr : List Event) (u' : UserState)
    (hrat : conf.ratings = true)
    (hrg : tc.ratingsGet = Except.ok rs)
    (h : hydrate ic tc conf false u0 = (tr, Except.ok u')) :
    ∀ r ∈ rs, ∃ id, r.getItemID = Except.ok (some id) ∧
      (assocLookup u'.traktRatings id).isSome := by
  rcases hydrate_ratings_part h with ⟨u2, trR, hR⟩
  rcases hydrateRatings_store hrat hrg hR with ⟨trS, u3, hS, hpres⟩
  intro r hr
  rcases storeTraktRatings_mem hS r hr with ⟨id, h1, h2⟩
  exact ⟨id, h1, by rw [hpres]; exact h2⟩

/-- Mirror client returning one rating item for the C3 witness. -/
def tcC3 : TraktClientResp :=
  { tcOkBase with ratingsGet :=
      (Except.ok [{ itemType := "movie", imdbID := "tt1" }]) }

/-- The state hydrate produces for the C3 witness input. -/
def uC3res : UserState :=
  { imdbLists := [], imdbRatings := [], traktLists := [],
    traktRatings := [("tt1", { itemType := "movie", imdbID := "tt1" })] }

/-- C3 witness: at a concrete ratings-only run with one fetched mirror rating
item, its identity is derived and the item is present in the resulting mirror
ratings map. -/
theorem C3_no_silent_drop_witness :
    ∃ id, TraktItem.getItemID { itemType := "movie", imdbID := "tt1" } =
      Except.ok (some id) ∧ (assocLookup uC3res.traktRatings id).isSome :=
  C3_no_silent_drop icOkBase tcC3 confFullR (initialUser confFullR [])
    [{ itemType := "movie", imdbID := "tt1" }]
    [Event.ratingsExport, Event.traktRatingsGet, Event.imdbRatingsGet] uC3res
    rfl rfl rfl
    { itemType := "movie", imdbID := "tt1" } (by simp)

/-! ### C4 -/

theorem SyncM.seq_snd_error {x : SyncM α} {e : String}
    (h : x.2 = Except.error e) (f : α → SyncM β) :
    (SyncM.seq x f).2 = Except.error e := by
  obtain ⟨tr, r⟩ := x
  cases r with
  | ok a => simp at h
  | error e2 =>
    rw [SyncM.seq_pair_error]
    have h3 : e2 = e := Except.error.inj h
    rw [h3]

/-- Trace of the delegated-error loop on a single not-found signal: one
create-list call outside dry-run, one informational log in dry-run. -/
theorem processDelegated_single_notFound_trace (tc : TraktClientResp)
    (mode : SyncMode) (metas : List TraktIDMeta) (slug : String) :
    (processDelegated tc mode metas [DelegatedError.notFound slug]).1 =
      if mode = SyncMode.dryRun then
        [Event.logInfo ("sync mode " ++ mode.toStr ++
          " would have created trakt list " ++ slug ++
          " to backfill imdb list " ++ GetListNameFromSlug metas slug)]
      else [Event.listAdd slug (GetListNameFromSlug metas slug)] := by
  by_cases hm : mode = SyncMode.dryRun
  · simp [processDelegated, hm, SyncM.seq, SyncM.emit, SyncM.ret]
  · simp only [processDelegated, if_neg hm]
    cases hr : tc.listAdd slug (GetListNameFromSlug metas slug) with
    | ok a => simp [SyncM.call, SyncM.seq, processDelegated, SyncM.ret]
    | error er => simp [SyncM.call, SyncM.seq, processDelegated, SyncM.ret]

/-- The delegated-error loop fails whenever the delegated errors contain a
non-not-found error. -/
theorem processDelegated_other_error (tc : TraktClientResp) (mode : SyncMode)
    (metas : List TraktIDMeta) (des : List DelegatedError) (em : String)
    (hmem : DelegatedError.other em ∈ des) :
    ∃ err, (processDelegated tc mode metas des).2 = Except.error err := by
  induction des with
  | nil => simp at hmem
  | cons d rest ih =>
    cases d with
    | notFound slug =>
      have h2 : DelegatedError.other em ∈ rest := by
        rcases List.mem_cons.mp hmem with h3 | h3
        · exact absurd h3 (by simp)
        · exact h3
      rcases ih h2 with ⟨err, herr⟩
      simp only [processDelegated]
      by_cases hm : mode = SyncMode.dryRun
      · rw [if_pos hm]
        exact ⟨err, herr⟩
      · rw [if_neg hm]
        cases hr : tc.listAdd slug (GetListNameFromSlug metas slug) with
        | ok a =>
          refine ⟨err, ?_⟩
          simpa [SyncM.call, SyncM.seq] using herr
        | error er =>
          refine ⟨"failure creating trakt list: " ++ er, ?_⟩
          simp [SyncM.call, SyncM.seq]
    | other msg =>
      rcases List.mem_cons.mp hmem with h3 | h3
      · injection h3 with h4
        exact ⟨"failure hydrating trakt lists: " ++ msg, rfl⟩
      · exact ⟨"failure hydrating trakt lists: " ++ msg, rfl⟩

/-- Trace tail contributed by the continuation of a sequence. -/
def SyncM.tail (x : SyncM α) (f : α → SyncM β) : List Event :=
  match x.2 with
  | Except.ok a => (f a).1
  | Except.error _ => []

theorem SyncM.seq_fst (x : SyncM α) (f : α → SyncM β) :
    (SyncM.seq x f).1 = x.1 ++ SyncM.tail x f := by
  obtain ⟨tr, r⟩ := x; cases r <;> simp [SyncM.seq, SyncM.tail]

theorem SyncM.tail_of_ok {x : SyncM α} {tr : List Event} {a : α}
    (h : x = (tr, Except.ok a)) (f : α → SyncM β) :
    SyncM.tail x f = (f a).1 := by
  subst h; rfl

theorem SyncM.tail_ret (x : SyncM α) (g : α → β) :
    SyncM.tail x (fun a => SyncM.ret (g a)) = [] := by
  obtain ⟨tr, r⟩ := x; cases r <;> rfl

theorem SyncM.tail_emit (ev : Event) (f : Unit → SyncM β) :
    SyncM.tail (SyncM.emit ev) f = (f ()).1 := rfl

theorem SyncM.emit_fst (ev : Event) : (SyncM.emit ev).1 = [ev] := rfl

theorem SyncM.mem_tail {x : SyncM α} {f : α → SyncM β} {e : Event}
    (h : e ∈ SyncM.tail x f) : ∃ a, e ∈ (f a).1 := by
  obtain ⟨tr, r⟩ := x
  cases r with
  | ok a => exact ⟨a, h⟩
  | error e2 => simp [SyncM.tail] at h

/-- The trace of the list block when the source list fetch succeeds: the two
fetch events followed by the delegated-error loop trace. -/
theorem hydrateLists_trace (ic : IMDbClientResp) (tc : TraktClientResp)
    (conf : SyncConf) (lids : List String) (u : UserState)
    (ls : List IMDbList)
    (hlists : conf.lists = true)
    (hlg : ic.listsGet lids = Except.ok ls) :
    (hydrateLists ic tc conf lids u).1 =
      Event.imdbListsGet lids :: Event.traktListsGet (mkIDMetas ls) ::
        (processDelegated tc conf.mode (mkIDMetas ls)
          (tc.listsGet (mkIDMetas ls)).2).1 := by
  unfold hydrateLists
  rw [hlists]
  simp only [if_true]
  rw [SyncM.seq_fst, SyncM.call_trace, SyncM.tail_of_ok (SyncM.call_of_ok hlg)]
  rw [SyncM.seq_fst, SyncM.emit_fst, SyncM.tail_emit]
  rw [SyncM.seq_fst, SyncM.tail_ret]
  simp

/-- Decomposition of the hydrate trace when the exports and the source list
fetch succeed: the full trace is the export trace, the two list-fetch events,
the delegated-error loop trace, and a remainder containing only
watchlist/ratings fetch events. -/
theorem hydrate_trace_decomp (ic : IMDbClientResp) (tc : TraktClientResp)
    (conf : SyncConf) (authless : Bool) (u0 : UserState)
    (trE : List Event) (ls : List IMDbList)
    (hlists : conf.lists = true)
    (hexp : hydrateExports ic conf (u0.imdbLists.map Prod.fst) =
      (trE, Except.ok ()))
    (hlg : ic.listsGet (u0.imdbLists.map Prod.fst) = Except.ok ls) :
    ∃ trRest,
      (hydrate ic tc conf authless u0).1 =
        trE ++ Event.imdbListsGet (u0.imdbLists.map Prod.fst) ::
          Event.traktListsGet (mkIDMetas ls) ::
          ((processDelegated tc conf.mode (mkIDMetas ls)
            (tc.listsGet (mkIDMetas ls)).2).1 ++ trRest) ∧
      ∀ e ∈ trRest, e.kind ∈ [EventKind.imdbWatchlistGet,
        EventKind.traktWatchlistGet, EventKind.traktRatingsGet,
        EventKind.imdbRatingsGet] := by
  refine ⟨SyncM.tail
    (hydrateLists ic tc conf (u0.imdbLists.map Prod.fst) u0)
    (fun u1 =>
      if authless = true then SyncM.ret u1
      else
        SyncM.seq (hydrateWatchlist ic tc conf u1) (fun u2 =>
          hydrateRatings ic tc conf u2)), ?_, ?_⟩
  · unfold hydrate
    rw [SyncM.seq_fst, SyncM.tail_of_ok hexp]
    rw [SyncM.seq_fst]
    rw [hydrateLists_trace ic tc conf _ u0 ls hlists hlg]
    rw [hexp]
    simp
  · intro e he
    rcases SyncM.mem_tail he with ⟨u1, h1⟩
    rcases SyncM.mem_ite_trace h1 with ⟨_, h2⟩ | ⟨_, h2⟩
    · simp [SyncM.ret] at h2
    · rcases SyncM.mem_seq_trace h2 with h3 | ⟨u2, _, h3⟩
      · have h4 := hydrateWatchlist_kinds ic tc conf u1 e h3
        simp only [List.mem_cons, List.not_mem_nil, or_false] at h4 ⊢
        tauto
      · have h4 := hydrateRatings_kinds ic tc conf u2 e h3
        simp only [List.mem_cons, List.not_mem_nil, or_false] at h4 ⊢
        tauto

theorem filterKinds_nil_of_subset {ks S : List EventKind} {tr : List Event}
    (hsub : ∀ e ∈ tr, e.kind ∈ S) (hdisj : ∀ k ∈ S, ¬ k ∈ ks) :
    filterKinds ks tr = [] :=
  filterKinds_eq_nil (fun e he hk => hdisj e.kind (hsub e he) hk)

theorem SyncM.seq_snd_of_ok {x : SyncM α} {tr : List Event} {a : α}
    (h : x = (tr, Except.ok a)) (f : α → SyncM β) :
    (SyncM.seq x f).2 = (f a).2 := by
  subst h; rfl

theorem SyncM.emit_eq (ev : Event) :
    SyncM.emit ev = ([ev], Except.ok ()) := rfl

/-- C4: with list sync enabled and the exports and the source list fetch
successful, if the mirror's list fetch delegates exactly one not-found signal
for `slug` then a full-mode hydration issues exactly one create-list call,
carrying that slug and the matching source list name, and a dry-run hydration
issues no create-list call and exactly one informational log entry; and if the
delegated errors contain any non-not-found error, hydrate aborts with an
error. -/
theorem C4_not_found (ic : IMDbClientResp) (tc : TraktClientResp)
    (conf : SyncConf) (authless : Bool) (u0 : UserState)
    (trE : List Event) (ls : List IMDbList) (slug : String)
    (hlists : conf.lists = true)
    (hexp : hydrateExports ic conf (u0.imdbLists.map Prod.fst) =
      (trE, Except.ok ()))
    (hlg : ic.listsGet (u0.imdbLists.map Prod.fst) = Except.ok ls) :
    ((tc.listsGet (mkIDMetas ls)).2 = [DelegatedError.notFound slug] →
      (conf.mode = SyncMode.full →
        filterKinds [EventKind.listAdd] (hydrate ic tc conf authless u0).1 =
          [Event.listAdd slug (GetListNameFromSlug (mkIDMetas ls) slug)]) ∧
      (conf.mode = SyncMode.dryRun →
        filterKinds [EventKind.listAdd] (hydrate ic tc conf authless u0).1 =
          [] ∧
        filterKinds [EventKind.logInfo] (hydrate ic tc conf authless u0).1 =
          [Event.logInfo ("sync mode " ++ SyncMode.dryRun.toStr ++
            " would have created trakt list " ++ slug ++
            " to backfill imdb list " ++
            GetListNameFromSlug (mkIDMetas ls) slug)])) ∧
    (∀ em, DelegatedError.other em ∈ (tc.listsGet (mkIDMetas ls)).2 →
      ∃ err, (hydrate ic tc conf authless u0).2 = Except.error err) := by
  obtain ⟨trRest, hdec, hrest⟩ :=
    hydrate_trace_decomp ic tc conf authless u0 trE ls hlists hexp hlg
  have hexpKinds : ∀ e ∈ trE, e.kind ∈ [EventKind.ratingsExport,
      EventKind.listsExport, EventKind.watchlistExport] := by
    intro e he
    exact hydrateExports_kinds ic conf _ e (by rw [hexp]; exact he)
  constructor
  · intro hdel
    constructor
    · intro hmode
      rw [hdec, hdel,
        processDelegated_single_notFound_trace tc conf.mode (mkIDMetas ls) slug,
        hmode]
      rw [if_neg (by decide : ¬ SyncMode.full = SyncMode.dryRun)]
      rw [filterKinds_append, filterKinds_cons, filterKinds_cons,
        filterKinds_append, filterKinds_cons, filterKinds_nil,
        filterKinds_nil_of_subset hexpKinds (by decide),
        filterKinds_nil_of_subset hrest (by decide)]
      simp [Event.kind]
    · intro hmode
      rw [hdec, hdel,
        processDelegated_single_notFound_trace tc conf.mode (mkIDMetas ls) slug,
        hmode]
      rw [if_pos rfl]
      constructor
      · rw [filterKinds_append, filterKinds_cons, filterKinds_cons,
          filterKinds_append, filterKinds_cons, filterKinds_nil,
          filterKinds_nil_of_subset hexpKinds (by decide),
          filterKinds_nil_of_subset hrest (by decide)]
        simp [Event.kind]
      · rw [filterKinds_append, filterKinds_cons, filterKinds_cons,
          filterKinds_append, filterKinds_cons, filterKinds_nil,
          filterKinds_nil_of_subset hexpKinds (by decide),
          filterKinds_nil_of_subset hrest (by decide)]
        simp [Event.kind]
  · intro em hmem
    rcases processDelegated_other_error tc conf.mode (mkIDMetas ls) _ em hmem
      with ⟨err, herr⟩
    have hl2 : (hydrateLists ic tc conf (u0.imdbLists.map Prod.fst) u0).2 =
        Except.error err := by
      unfold hydrateLists
      rw [hlists]
      simp only [if_true]
      rw [SyncM.seq_snd_of_ok (SyncM.call_of_ok hlg)]
      rw [SyncM.seq_snd_of_ok (SyncM.emit_eq (Event.traktListsGet (mkIDMetas ls)))]
      exact SyncM.seq_snd_error herr _
    refine ⟨err, ?_⟩
    unfold hydrate
    rw [SyncM.seq_snd_of_ok hexp]
    exact SyncM.seq_snd_error hl2 _

/-- Source client for the C4 witness: one named list "My List". -/
def icC4 : IMDbClientResp :=
  { icOkBase with listsGet :=
      (fun _ => Except.ok
        [{ listID := "l1", listName := "My List", isWatchlist := false,
           listItems := [{ id := "tt1", titleType := "movie", rating := 7 }] }]) }

/-- Mirror client for the C4 witness: the list fetch delegates one not-found
signal for the slug my-list. -/
def tcC4 : TraktClientResp :=
  { tcOkBase with listsGet :=
      (fun _ => ([], [DelegatedError.notFound "my-list"])) }

/-- C4 witness: a concrete full-mode hydration whose mirror list fetch
reports exactly one not-found slug issues exactly one create-list call
carrying the slug and the source list name. -/
theorem C4_not_found_witness :
    filterKinds [EventKind.listAdd]
      (hydrate icC4 tcC4 confC1 false (initialUser confC1 ["l1"])).1 =
      [Event.listAdd "my-list" "My List"] := by
  have h := ((C4_not_found icC4 tcC4 confC1 false (initialUser confC1 ["l1"])
    [Event.listsExport ["l1"]]
    [{ listID := "l1", listName := "My List", isWatchlist := false,
       listItems := [{ id := "tt1", titleType := "movie", rating := 7 }] }]
    "my-list" rfl rfl rfl).1 rfl).1 rfl
  exact h.trans (by decide)

/-! ### C5 -/

theorem occCount_nil (a : TraktItem) : occCount a [] = 0 := rfl

theorem occCount_cons (a x : TraktItem) (l : List TraktItem) :
    occCount a (x :: l) = (if x = a then 1 else 0) + occCount a l := by
  by_cases h : x = a
  · simp [occCount, List.filter_cons, h, Nat.add_comm]
  · simp [occCount, List.filter_cons, h]

theorem occCount_pos_of_mem {a : TraktItem} {l : List TraktItem}
    (h : a ∈ l) : 0 < occCount a l := by
  induction l with
  | nil => simp at h
  | cons x rest ih =>
    rw [occCount_cons]
    rcases List.mem_cons.mp h with rfl | h2
    · simp
    · have := ih h2
      omega

theorem occCount_eq_one_of_nodup {a : TraktItem} {l : List TraktItem}
    (hnd : l.Nodup) (h : a ∈ l) : occCount a l = 1 := by
  induction l with
  | nil => simp at h
  | cons x rest ih =>
    rw [List.nodup_cons] at hnd
    rw [occCount_cons]
    rcases List.mem_cons.mp h with rfl | h2
    · rw [if_pos rfl]
      have : occCount a rest = 0 := by
        by_contra hne
        have h3 : 0 < occCount a rest := Nat.pos_of_ne_zero hne
        have h4 : a ∈ rest := by
          by_contra h5
          have : occCount a rest = 0 := by
            simp only [occCount, List.length_eq_zero]
            rw [List.eq_nil_iff_forall_not_mem]
            intro y hy
            rw [List.mem_filter] at hy
            exact h5 ((of_decide_eq_true hy.2) ▸ hy.1)
          omega
        exact hnd.1 h4
      omega
    · rw [ih hnd.2 h2, if_neg (fun he : x = a => hnd.1 (by rw [he]; exact h2))]

/-- Equation form of the cons case of `collectHistoryAdd`. -/
theorem collectHistoryAdd_cons (tc : TraktClientResp) (it : TraktItem)
    (rest : List TraktItem) :
    collectHistoryAdd tc (it :: rest) =
      match it.getItemID with
      | Except.error e => SyncM.fail ("failure fetching trakt item id: " ++ e)
      | Except.ok none => SyncM.fail "nil trakt item id"
      | Except.ok (some id) =>
        SyncM.seq
          (SyncM.call (Event.historyGet it.itemType id)
            ("failure fetching trakt history for " ++ it.itemType ++ " " ++
              id ++ ": ")
            (tc.historyGet it.itemType id)) (fun history =>
          if history.length > 0 then collectHistoryAdd tc rest
          else
            SyncM.seq (collectHistoryAdd tc rest)
              (fun more => SyncM.ret (it :: more))) := rfl

/-- Count of one item in the collected history-Add batch: preserved when the
mirror reports no history for it, zero when the mirror reports existing
history. -/
theorem collectHistoryAdd_count (tc : TraktClientResp) (l : List TraktItem)
    (tr : List Event) (hta : List TraktItem)
    (h : collectHistoryAdd tc l = (tr, Except.ok hta))
    (it : TraktItem) (id : String)
    (hid : it.getItemID = Except.ok (some id)) :
    (tc.historyGet it.itemType id = Except.ok [] →
      occCount it hta = occCount it l) ∧
    (∀ hs, tc.historyGet it.itemType id = Except.ok hs → hs ≠ [] →
      occCount it hta = 0) := by
  induction l generalizing tr hta with
  | nil =>
    rcases SyncM.ret_inv h with ⟨_, h2⟩
    subst h2
    exact ⟨fun _ => rfl, fun _ _ _ => rfl⟩
  | cons x rest ih =>
    rw [collectHistoryAdd_cons] at h
    cases hx : x.getItemID with
    | error e =>
      rw [hx] at h
      exact absurd (congrArg Prod.snd h) (by simp [SyncM.fail])
    | ok o =>
      cases o with
      | none => exact absurd hx (getItemID_ne_ok_none x)
      | some idx =>
        rw [hx] at h
        rcases SyncM.seq_eq_ok h with ⟨tr1, history, tr2, h1, h2, rfl⟩
        rcases SyncM.call_ok_inv h1 with ⟨rfl, hresp⟩
        by_cases hlen : history.length > 0
        · rw [if_pos hlen] at h2
          have ihres := ih tr2 hta h2
          constructor
          · intro hget
            rw [ihres.1 hget, occCount_cons]
            by_cases hxit : x = it
            · exfalso
              subst hxit
              rw [hx] at hid
              injection hid with hid2
              injection hid2 with hid3
              rw [hid3] at hresp
              rw [hget] at hresp
              injection hresp with hresp2
              rw [← hresp2] at hlen
              simp at hlen
            · simp [hxit]
          · intro hs hget hne
            exact ihres.2 hs hget hne
        · rw [if_neg hlen] at h2
          rcases SyncM.seq_eq_ok h2 with ⟨tr3, more, tr4, h3, h4, rfl⟩
          rcases SyncM.ret_inv h4 with ⟨rfl, h5⟩
          subst h5
          have ihres := ih tr3 more h3
          constructor
          · intro hget
            rw [occCount_cons, occCount_cons, ihres.1 hget]
          · intro hs hget hne
            rw [occCount_cons, ihres.2 hs hget hne]
            by_cases hxit : x = it
            · exfalso
              subst hxit
              rw [hx] at hid
              injection hid with hid2
              injection hid2 with hid3
              rw [hid3] at hresp
              rw [hget] at hresp
              injection hresp with hresp2
              apply hne
              rw [hresp2]
              refine List.length_eq_zero.mp ?_
              omega
            · simp [hxit]

/-- Pairs of an association list with no duplicate keys are determined by
their keys. -/
theorem eq_of_keys_nodup {l : List (String × IMDbItem)}
    (hnd : (l.map Prod.fst).Nodup) :
    ∀ p ∈ l, ∀ q ∈ l, p.1 = q.1 → p = q := by
  induction l with
  | nil => intro p hp; simp at hp
  | cons r rest ih =>
    rw [List.map_cons, List.nodup_cons] at hnd
    intro p hp q hq hpq
    rcases List.mem_cons.mp hp with rfl | hp2
    · rcases List.mem_cons.mp hq with rfl | hq2
      · rfl
      · exact absurd (hpq ▸ List.mem_map_of_mem Prod.fst hq2) hnd.1
    · rcases List.mem_cons.mp hq with rfl | hq2
      · exact absurd (hpq ▸ List.mem_map_of_mem Prod.fst hp2) hnd.1
      · exact ih hnd.2 p hp2 q hq2 hpq

/-- With well-formed, duplicate-free source ratings keys, the ratings-diff
Add set has no duplicate items. -/
theorem itemsDiff_add_nodup {u : UserState}
    (hkeys : (u.imdbRatings.map Prod.fst).Nodup)
    (hwf : ∀ p ∈ u.imdbRatings, p.2.id = p.1) :
    (ItemsDifference u.imdbRatings u.traktRatings).add.Nodup := by
  have hsub : ((u.imdbRatings.filter
      (fun p => !keyMem p.1 u.traktRatings)).map Prod.fst).Nodup := by
    refine List.Nodup.sublist ?_ hkeys
    exact List.Sublist.map Prod.fst (List.filter_sublist u.imdbRatings)
  have hfilter_nodup : (u.imdbRatings.filter
      (fun p => !keyMem p.1 u.traktRatings)).Nodup :=
    List.Nodup.of_map Prod.fst hsub
  refine List.Nodup.map_on ?_ hfilter_nodup
  intro x hx y hy hxy
  have hx2 := List.mem_of_mem_filter hx
  have hy2 := List.mem_of_mem_filter hy
  have hid : x.2.id = y.2.id := by
    have := congrArg TraktItem.imdbID hxy
    simpa [toTraktItem] using this
  have hkey : x.1 = y.1 := by
    rw [← hwf x hx2, ← hwf y hy2, hid]
  exact eq_of_keys_nodup hkeys x hx2 y hy2 hkey

/-- C5: for every item of the ratings-diff Add set (over well-formed,
duplicate-free source ratings), when the history-Add collection succeeds, an
item for which the mirror reports no existing history entries appears in the
history-Add batch exactly once, and an item for which the mirror reports at
least one entry does not appear in the batch at all. -/
theorem C5_history_inference (tc : TraktClientResp) (u : UserState)
    (tr : List Event) (hta : List TraktItem)
    (hkeys : (u.imdbRatings.map Prod.fst).Nodup)
    (hwf : ∀ p ∈ u.imdbRatings, p.2.id = p.1)
    (hcol : collectHistoryAdd tc
      (ItemsDifference u.imdbRatings u.traktRatings).add =
      (tr, Except.ok hta))
    (it : TraktItem)
    (hit : it ∈ (ItemsDifference u.imdbRatings u.traktRatings).add)
    (id : String) (hid : it.getItemID = Except.ok (some id)) :
    (tc.historyGet it.itemType id = Except.ok [] → occCount it hta = 1) ∧
    (∀ hs, tc.historyGet it.itemType id = Except.ok hs → hs ≠ [] →
      ¬ it ∈ hta) := by
  have hone : occCount it (ItemsDifference u.imdbRatings u.traktRatings).add = 1 :=
    occCount_eq_one_of_nodup (itemsDiff_add_nodup hkeys hwf) hit
  have hcnt := collectHistoryAdd_count tc _ tr hta hcol it id hid
  constructor
  · intro hget
    rw [hcnt.1 hget, hone]
  · intro hs hget hne hmem
    have h0 := hcnt.2 hs hget hne
    have h1 := occCount_pos_of_mem hmem
    omega

/-- Hydrated state for the C5 witness: one source rating, no mirror
ratings. -/
def uC5 : UserState :=
  { imdbLists := [], traktLists := [], traktRatings := [],
    imdbRatings := [("tt1", { id := "tt1", titleType := "movie", rating := 8 })] }

/-- C5 witness: at a concrete state whose ratings diff adds one item with no
mirror history, the collected history-Add batch holds that item exactly
once. -/
theorem C5_history_inference_witness :
    occCount { itemType := "movie", imdbID := "tt1" }
      [({ itemType := "movie", imdbID := "tt1" } : TraktItem)] = 1 :=
  (C5_history_inference tcOkBase uC5
    [Event.historyGet "movie" "tt1"]
    [{ itemType := "movie", imdbID := "tt1" }]
    (by decide) (by decide) rfl
    { itemType := "movie", imdbID := "tt1" } (by decide)
    "tt1" rfl).1 rfl

/-! ### C6 -/

theorem ite_call_ok_inv {b : Bool} {ev : Event} {w : String}
    {r : Except String Unit} {tr : List Event}
    (h : (if b = true then SyncM.call ev w r else SyncM.ret ()) =
      (tr, Except.ok ())) :
    tr = if b = true then [ev] else [] := by
  cases b with
  | false =>
    simp only [Bool.false_eq_true, if_false] at h ⊢
    exact (SyncM.ret_inv h).1
  | true =>
    simp only [if_true] at h ⊢
    exact (SyncM.call_ok_inv h).1

/-- Trace of a successful export block: one export event per enabled domain,
in the order ratings, lists, watchlist. -/
theorem hydrateExports_trace {ic : IMDbClientResp} {conf : SyncConf}
    {lids : List String} {trE : List Event}
    (h : hydrateExports ic conf lids = (trE, Except.ok ())) :
    trE = (if conf.ratings = true then [Event.ratingsExport] else []) ++
      ((if conf.lists = true then [Event.listsExport lids] else []) ++
       (if conf.watchlist = true then [Event.watchlistExport] else [])) := by
  unfold hydrateExports at h
  rcases SyncM.seq_eq_ok h with ⟨t1, a1, t2, h1, h2, rfl⟩
  rcases SyncM.seq_eq_ok h2 with ⟨t3, a2, t4, h3, h4, rfl⟩
  cases a1; cases a2
  rw [ite_call_ok_inv h1, ite_call_ok_inv h3, ite_call_ok_inv h4]

/-- Trace of a successful watchlist block: source fetch then mirror fetch. -/
theorem hydrateWatchlist_trace {ic : IMDbClientResp} {tc : TraktClientResp}
    {conf : SyncConf} {u : UserState} {trW : List Event} {u2 : UserState}
    (hw : conf.watchlist = true)
    (h : hydrateWatchlist ic tc conf u = (trW, Except.ok u2)) :
    trW = [Event.imdbWatchlistGet, Event.traktWatchlistGet] := by
  unfold hydrateWatchlist at h
  rw [hw] at h
  simp only [if_true] at h
  rcases SyncM.seq_eq_ok h with ⟨t1, iw, t2, h1, h2, rfl⟩
  rcases SyncM.call_ok_inv h1 with ⟨rfl, _⟩
  rcases SyncM.seq_eq_ok h2 with ⟨t3, tw, t4, h3, h4, rfl⟩
  rcases SyncM.call_ok_inv h3 with ⟨rfl, _⟩
  rcases SyncM.ret_inv h4 with ⟨rfl, _⟩
  rfl

/-- Trace of a successful ratings block: mirror fetch then source fetch (the
storage loop emits nothing). -/
theorem hydrateRatings_trace {ic : IMDbClientResp} {tc : TraktClientResp}
    {conf : SyncConf} {u : UserState} {trR : List Event} {u2 : UserState}
    (hr : conf.ratings = true)
    (h : hydrateRatings ic tc conf u = (trR, Except.ok u2)) :
    trR = [Event.traktRatingsGet, Event.imdbRatingsGet] := by
  unfold hydrateRatings at h
  rw [hr] at h
  simp only [if_true] at h
  rcases SyncM.seq_eq_ok h with ⟨t1, trs, t2, h1, h2, rfl⟩
  rcases SyncM.call_ok_inv h1 with ⟨rfl, _⟩
  rcases SyncM.seq_eq_ok h2 with ⟨trS, u3, t4, h3, h4, rfl⟩
  have hS : trS = [] := by
    have h5 := congrArg Prod.fst h3
    rw [storeTraktRatings_trace] at h5
    exact h5.symm
  subst hS
  rcases SyncM.seq_eq_ok h4 with ⟨t5, irs, t6, h5, h6, rfl⟩
  rcases SyncM.call_ok_inv h5 with ⟨rfl, _⟩
  rcases SyncM.ret_inv h6 with ⟨rfl, _⟩
  rfl

/-- A disabled watchlist block is silent. -/
theorem hydrateWatchlist_trace_nil {ic : IMDbClientResp} {tc : TraktClientResp}
    {conf : SyncConf} {u : UserState} {trW : List Event} {r : Except String UserState}
    (hw : conf.watchlist = false)
    (h : hydrateWatchlist ic tc conf u = (trW, r)) : trW = [] := by
  unfold hydrateWatchlist at h
  rw [hw] at h
  simp only [Bool.false_eq_true, if_false] at h
  exact (congrArg Prod.fst h).symm

/-- A disabled ratings block is silent. -/
theorem hydrateRatings_trace_nil {ic : IMDbClientResp} {tc : TraktClientResp}
    {conf : SyncConf} {u : UserState} {trR : List Event} {r : Except String UserState}
    (hr : conf.ratings = false)
    (h : hydrateRatings ic tc conf u = (trR, r)) : trR = [] := by
  unfold hydrateRatings at h
  rw [hr] at h
  simp only [Bool.false_eq_true, if_false] at h
  exact (congrArg Prod.fst h).symm

/-- A disabled list block is silent. -/
theorem hydrateLists_trace_nil {ic : IMDbClientResp} {tc : TraktClientResp}
    {conf : SyncConf} {lids : List String} {u : UserState} {trL : List Event}
    {r : Except String UserState}
    (hl : conf.lists = false)
    (h : hydrateLists ic tc conf lids u = (trL, r)) : trL = [] := by
  unfold hydrateLists at h
  rw [hl] at h
  simp only [Bool.false_eq_true, if_false] at h
  exact (congrArg Prod.fst h).symm

/-- A successful list block implies a successful source list fetch. -/
theorem hydrateLists_ok_listsGet {ic : IMDbClientResp} {tc : TraktClientResp}
    {conf : SyncConf} {lids : List String} {u : UserState} {trL : List Event}
    {u1 : UserState}
    (hl : conf.lists = true)
    (h : hydrateLists ic tc conf lids u = (trL, Except.ok u1)) :
    ∃ ls, ic.listsGet lids = Except.ok ls := by
  unfold hydrateLists at h
  rw [hl] at h
  simp only [if_true] at h
  rcases SyncM.seq_eq_ok h with ⟨t1, ls, t2, h1, _, _⟩
  exact ⟨ls, (SyncM.call_ok_inv h1).2⟩

/-- Decomposition of a successful credentialed hydrate into its four
successful blocks. -/
theorem hydrate_ok_decomp {ic : IMDbClientResp} {tc : TraktClientResp}
    {conf : SyncConf} {u0 : UserState} {trH : List Event} {u' : UserState}
    (h : hydrate ic tc conf false u0 = (trH, Except.ok u')) :
    ∃ trE trL u1 trW u2 trR,
      hydrateExports ic conf (u0.imdbLists.map Prod.fst) =
        (trE, Except.ok ()) ∧
      hydrateLists ic tc conf (u0.imdbLists.map Prod.fst) u0 =
        (trL, Except.ok u1) ∧
      hydrateWatchlist ic tc conf u1 = (trW, Except.ok u2) ∧
      hydrateRatings ic tc conf u2 = (trR, Except.ok u') ∧
      trH = trE ++ (trL ++ (trW ++ trR)) := by
  unfold hydrate at h
  rcases SyncM.seq_eq_ok h with ⟨trE, a1, t2, h1, h2, rfl⟩
  cases a1
  rcases SyncM.seq_eq_ok h2 with ⟨trL, u1, t4, h3, h4, rfl⟩
  simp only [Bool.false_eq_true, if_false] at h4
  rcases SyncM.seq_eq_ok h4 with ⟨trW, u2, trR, h5, h6, rfl⟩
  exact ⟨trE, trL, u1, trW, u2, trR, h1, h3, h5, h6, rfl⟩

theorem filterKinds_ite_single {S : List EventKind} {b : Bool} {e : Event}
    (h : ¬ e.kind ∈ S) :
    filterKinds S (if b = true then [e] else []) = [] := by
  cases b <;> simp [filterKinds_cons, filterKinds_nil, h]

theorem filterKinds_ite_single_mem {S : List EventKind} {e : Event}
    (h : e.kind ∈ S) :
    filterKinds S (if true = true then [e] else []) = [e] := by
  simp [filterKinds_cons, filterKinds_nil, h]

/-- C6 counterexample: in a concrete ratings-only run, hydration fetches the
mirror (trakt) ratings before the source (imdb) ratings, so the subtrace of
the two ratings fetches is mirror-first, not source-first as the claim
states. -/
theorem C6_counterexample :
    (hydrate icOkBase tcOkBase confFullR false (initialUser confFullR [])).1 =
      [Event.ratingsExport, Event.traktRatingsGet, Event.imdbRatingsGet] ∧
    filterKinds [EventKind.imdbRatingsGet, EventKind.traktRatingsGet]
      (hydrate icOkBase tcOkBase confFullR false (initialUser confFullR [])).1 =
      [Event.traktRatingsGet, Event.imdbRatingsGet] ∧
    filterKinds [EventKind.imdbRatingsGet, EventKind.traktRatingsGet]
      (hydrate icOkBase tcOkBase confFullR false (initialUser confFullR [])).1 ≠
      [Event.imdbRatingsGet, Event.traktRatingsGet] := by
  exact ⟨by decide, by decide, by decide⟩

/-- C6 (amended): in a successful credentialed hydration, every enabled
domain's source export precedes its fetches; the lists domain fetches source
before mirror, the watchlist domain fetches source before mirror, but the
ratings domain fetches the mirror ratings before the source ratings. -/
theorem C6_fetch_order (ic : IMDbClientResp) (tc : TraktClientResp)
    (conf : SyncConf) (u0 : UserState) (trH : List Event) (u' : UserState)
    (h : hydrate ic tc conf false u0 = (trH, Except.ok u')) :
    (conf.ratings = true →
      filterKinds [EventKind.ratingsExport, EventKind.traktRatingsGet,
        EventKind.imdbRatingsGet] trH =
        [Event.ratingsExport, Event.traktRatingsGet, Event.imdbRatingsGet]) ∧
    (conf.watchlist = true →
      filterKinds [EventKind.watchlistExport, EventKind.imdbWatchlistGet,
        EventKind.traktWatchlistGet] trH =
        [Event.watchlistExport, Event.imdbWatchlistGet,
         Event.traktWatchlistGet]) ∧
    (conf.lists = true →
      ∃ ls, ic.listsGet (u0.imdbLists.map Prod.fst) = Except.ok ls ∧
        filterKinds [EventKind.listsExport, EventKind.imdbListsGet,
          EventKind.traktListsGet] trH =
          [Event.listsExport (u0.imdbLists.map Prod.fst),
           Event.imdbListsGet (u0.imdbLists.map Prod.fst),
           Event.traktListsGet (mkIDMetas ls)]) := by
  rcases hydrate_ok_decomp h with ⟨trE, trL, u1, trW, u2, trR, hE, hL, hW, hR, rfl⟩
  have hEtr := hydrateExports_trace hE
  have hLfilter : ∀ S : List EventKind,
      ¬ EventKind.imdbListsGet ∈ S → ¬ EventKind.traktListsGet ∈ S →
      ¬ EventKind.logInfo ∈ S → ¬ EventKind.listAdd ∈ S →
      filterKinds S trL = [] := by
    intro S hk1 hk2 hk3 hk4
    by_cases hli : conf.lists = true
    · rcases hydrateLists_ok_listsGet hli hL with ⟨ls, hlg⟩
      have hLtr : trL = Event.imdbListsGet (u0.imdbLists.map Prod.fst) ::
          Event.traktListsGet (mkIDMetas ls) ::
          (processDelegated tc conf.mode (mkIDMetas ls)
            (tc.listsGet (mkIDMetas ls)).2).1 := by
        have h9 := hydrateLists_trace ic tc conf _ u0 ls hli hlg
        rw [hL] at h9
        exact h9
      rw [hLtr]
      refine filterKinds_eq_nil ?_
      intro e he
      rcases List.mem_cons.mp he with rfl | he2
      · simpa [Event.kind] using hk1
      rcases List.mem_cons.mp he2 with rfl | he3
      · simpa [Event.kind] using hk2
      · have h10 := processDelegated_kinds tc conf.mode (mkIDMetas ls) _ e he3
        simp only [List.mem_cons, List.not_mem_nil, or_false] at h10
        rcases h10 with h11 | h11 <;> rw [h11] <;> assumption
    · rw [hydrateLists_trace_nil (Bool.not_eq_true _ ▸ hli) hL]
      rfl
  have hWfilter : ∀ S : List EventKind,
      ¬ EventKind.imdbWatchlistGet ∈ S → ¬ EventKind.traktWatchlistGet ∈ S →
      filterKinds S trW = [] := by
    intro S hk1 hk2
    by_cases hwa : conf.watchlist = true
    · rw [hydrateWatchlist_trace hwa hW]
      refine filterKinds_eq_nil ?_
      intro e he
      rcases List.mem_cons.mp he with rfl | he2
      · simpa [Event.kind] using hk1
      · rcases List.mem_cons.mp he2 with rfl | he3
        · simpa [Event.kind] using hk2
        · simp at he3
    · rw [hydrateWatchlist_trace_nil (Bool.not_eq_true _ ▸ hwa) hW]
      rfl
  have hRfilter : ∀ S : List EventKind,
      ¬ EventKind.traktRatingsGet ∈ S → ¬ EventKind.imdbRatingsGet ∈ S →
      filterKinds S trR = [] := by
    intro S hk1 hk2
    by_cases hra : conf.ratings = true
    · rw [hydrateRatings_trace hra hR]
      refine filterKinds_eq_nil ?_
      intro e he
      rcases List.mem_cons.mp he with rfl | he2
      · simpa [Event.kind] using hk1
      · rcases List.mem_cons.mp he2 with rfl | he3
        · simpa [Event.kind] using hk2
        · simp at he3
    · rw [hydrateRatings_trace_nil (Bool.not_eq_true _ ▸ hra) hR]
      rfl
  refine ⟨?_, ?_, ?_⟩
  · intro hr
    have hRtr : trR = [Event.traktRatingsGet, Event.imdbRatingsGet] :=
      hydrateRatings_trace hr hR
    have f2 : filterKinds [EventKind.ratingsExport, EventKind.traktRatingsGet,
        EventKind.imdbRatingsGet]
        (if conf.lists = true then
          [Event.listsExport (u0.imdbLists.map Prod.fst)] else []) = [] :=
      filterKinds_ite_single (by simp [Event.kind])
    have f3 : filterKinds [EventKind.ratingsExport, EventKind.traktRatingsGet,
        EventKind.imdbRatingsGet]
        (if conf.watchlist = true then [Event.watchlistExport] else []) = [] :=
      filterKinds_ite_single (by decide)
    rw [hEtr, hRtr, hr]
    simp only [filterKinds_append, f2, f3,
      hLfilter [EventKind.ratingsExport, EventKind.traktRatingsGet,
        EventKind.imdbRatingsGet] (by decide) (by decide) (by decide) (by decide),
      hWfilter [EventKind.ratingsExport, EventKind.traktRatingsGet,
        EventKind.imdbRatingsGet] (by decide) (by decide)]
    simp [filterKinds_cons, filterKinds_nil, Event.kind]
  · intro hw
    have hWtr : trW = [Event.imdbWatchlistGet, Event.traktWatchlistGet] :=
      hydrateWatchlist_trace hw hW
    have f1 : filterKinds [EventKind.watchlistExport,
        EventKind.imdbWatchlistGet, EventKind.traktWatchlistGet]
        (if conf.ratings = true then [Event.ratingsExport] else []) = [] :=
      filterKinds_ite_single (by decide)
    have f2 : filterKinds [EventKind.watchlistExport,
        EventKind.imdbWatchlistGet, EventKind.traktWatchlistGet]
        (if conf.lists = true then
          [Event.listsExport (u0.imdbLists.map Prod.fst)] else []) = [] :=
      filterKinds_ite_single (by simp [Event.kind])
    rw [hEtr, hWtr, hw]
    simp only [filterKinds_append, f1, f2,
      hLfilter [EventKind.watchlistExport, EventKind.imdbWatchlistGet,
        EventKind.traktWatchlistGet] (by decide) (by decide) (by decide) (by decide),
      hRfilter [EventKind.watchlistExport, EventKind.imdbWatchlistGet,
        EventKind.traktWatchlistGet] (by decide) (by decide)]
    simp [filterKinds_cons, filterKinds_nil, Event.kind]
  · intro hli
    rcases hydrateLists_ok_listsGet hli hL with ⟨ls, hlg⟩
    refine ⟨ls, hlg, ?_⟩
    have hLtr : trL = Event.imdbListsGet (u0.imdbLists.map Prod.fst) ::
        Event.traktListsGet (mkIDMetas ls) ::
        (processDelegated tc conf.mode (mkIDMetas ls)
          (tc.listsGet (mkIDMetas ls)).2).1 := by
      have h9 := hydrateLists_trace ic tc conf _ u0 ls hli hlg
      rw [hL] at h9
      exact h9
    have f1 : filterKinds [EventKind.listsExport, EventKind.imdbListsGet,
        EventKind.traktListsGet]
        (if conf.ratings = true then [Event.ratingsExport] else []) = [] :=
      filterKinds_ite_single (by decide)
    have f3 : filterKinds [EventKind.listsExport, EventKind.imdbListsGet,
        EventKind.traktListsGet]
        (if conf.watchlist = true then [Event.watchlistExport] else []) = [] :=
      filterKinds_ite_single (by decide)
    have fD : filterKinds [EventKind.listsExport, EventKind.imdbListsGet,
        EventKind.traktListsGet]
        (processDelegated tc conf.mode (mkIDMetas ls)
          (tc.listsGet (mkIDMetas ls)).2).1 = [] :=
      filterKinds_nil_of_subset
        (processDelegated_kinds tc conf.mode (mkIDMetas ls) _) (by decide)
    rw [hEtr, hLtr, hli]
    simp only [filterKinds_append, f1, f3, fD,
      hWfilter [EventKind.listsExport, EventKind.imdbListsGet,
        EventKind.traktListsGet] (by decide) (by decide),
      hRfilter [EventKind.listsExport, EventKind.imdbListsGet,
        EventKind.traktListsGet] (by decide) (by decide)]
    simp [filterKinds_cons, filterKinds_nil, Event.kind, fD]

/-- Configuration with lists, watchlist and ratings all enabled. -/
def confAll : SyncConf :=
  { lists := true, watchlist := true, ratings := true, history := false,
    mode := SyncMode.full }

/-- C6 witness: a concrete all-domains run; the ratings-domain subtrace is
export, then the mirror fetch, then the source fetch. -/
theorem C6_fetch_order_witness :
    filterKinds [EventKind.ratingsExport, EventKind.traktRatingsGet,
      EventKind.imdbRatingsGet]
      (hydrate icC4 tcOkBase confAll false (initialUser confAll ["l1"])).1 =
      [Event.ratingsExport, Event.traktRatingsGet, Event.imdbRatingsGet] := by
  have hok : (match (hydrate icC4 tcOkBase confAll false
      (initialUser confAll ["l1"])).2 with
      | Except.ok _ => true
      | Except.error _ => false) = true := by decide
  rcases heq : hydrate icC4 tcOkBase confAll false (initialUser confAll ["l1"])
    with ⟨trH, r⟩
  cases r with
  | error e =>
    rw [heq] at hok
    simp at hok
  | ok u' =>
    have h := (C6_fetch_order icC4 tcOkBase confAll
      (initialUser confAll ["l1"]) trH u' heq).1 rfl
    exact h

/-! ### C7 -/

theorem assocLookup_foldl_insert_none (tls : List TraktList)
    (acc : List (String × TraktList)) (k : String)
    (hacc : assocLookup acc k = none)
    (hmem : ∀ tl ∈ tls, tl.idMeta.imdb ≠ k) :
    assocLookup
      (tls.foldl (fun acc tl => assocInsert acc tl.idMeta.imdb tl) acc) k =
      none := by
  induction tls generalizing acc with
  | nil => exact hacc
  | cons t rest ih =>
    simp only [List.foldl_cons]
    refine ih _ ?_ (fun tl h2 => hmem tl (List.mem_cons_of_mem _ h2))
    rw [assocLookup_insert, if_neg (hmem t (List.mem_cons_self _ _))]
    exact hacc

/-- The mirror lists stored by a successful list block are exactly the fetched
mirror lists folded over the previous state. -/
theorem hydrateLists_state {ic : IMDbClientResp} {tc : TraktClientResp}
    {conf : SyncConf} {lids : List String} {u0 : UserState} {trL : List Event}
    {u1 : UserState} {ls : List IMDbList}
    (hli : conf.lists = true)
    (hlg : ic.listsGet lids = Except.ok ls)
    (h : hydrateLists ic tc conf lids u0 = (trL, Except.ok u1)) :
    u1.traktLists = (tc.listsGet (mkIDMetas ls)).1.foldl
      (fun acc tl => assocInsert acc tl.idMeta.imdb tl) u0.traktLists := by
  unfold hydrateLists at h
  rw [hli] at h
  simp only [if_true] at h
  rcases SyncM.seq_eq_ok h with ⟨t1, ls2, t2, h1, h2, rfl⟩
  rcases SyncM.call_ok_inv h1 with ⟨rfl, hresp⟩
  rw [hlg] at hresp
  injection hresp with hls
  subst hls
  rcases SyncM.seq_eq_ok h2 with ⟨t3, a3, t4, h3, h4, rfl⟩
  rcases SyncM.seq_eq_ok h4 with ⟨t5, a5, t6, h5, h6, rfl⟩
  rcases SyncM.ret_inv h6 with ⟨rfl, h7⟩
  rw [h7]

/-- A disabled watchlist block leaves the state untouched. -/
theorem hydrateWatchlist_state_nil {ic : IMDbClientResp} {tc : TraktClientResp}
    {conf : SyncConf} {u : UserState} {trW : List Event} {u2 : UserState}
    (hw : conf.watchlist = false)
    (h : hydrateWatchlist ic tc conf u = (trW, Except.ok u2)) : u2 = u := by
  unfold hydrateWatchlist at h
  rw [hw] at h
  simp only [Bool.false_eq_true, if_false] at h
  exact (SyncM.ret_inv h).2

/-- The mirror-ratings storage loop never touches the mirror lists. -/
theorem storeTraktRatings_traktLists {u : UserState} {rs : List TraktItem}
    {tr : List Event} {u3 : UserState}
    (h : storeTraktRatings u rs = (tr, Except.ok u3)) :
    u3.traktLists = u.traktLists := by
  induction rs generalizing u with
  | nil =>
    rcases SyncM.ret_inv h with ⟨_, h2⟩
    rw [h2]
  | cons r rest ih =>
    rw [storeTraktRatings_cons] at h
    cases hid : r.getItemID with
    | error e =>
      rw [hid] at h
      exact absurd (congrArg Prod.snd h) (by simp [SyncM.fail])
    | ok o =>
      cases o with
      | none => exact absurd hid (getItemID_ne_ok_none r)
      | some id =>
        rw [hid] at h
        have h9 := ih h
        exact h9

/-- The ratings block never touches the mirror lists. -/
theorem hydrateRatings_traktLists {ic : IMDbClientResp} {tc : TraktClientResp}
    {conf : SyncConf} {u : UserState} {trR : List Event} {u2 : UserState}
    (h : hydrateRatings ic tc conf u = (trR, Except.ok u2)) :
    u2.traktLists = u.traktLists := by
  unfold hydrateRatings at h
  by_cases hr : conf.ratings = true
  · rw [hr] at h
    simp only [if_true] at h
    rcases SyncM.seq_eq_ok h with ⟨t1, trs, t2, h1, h2, rfl⟩
    rcases SyncM.seq_eq_ok h2 with ⟨t3, u3, t4, h3, h4, rfl⟩
    rcases SyncM.seq_eq_ok h4 with ⟨t5, irs, t6, h5, h6, rfl⟩
    rcases SyncM.ret_inv h6 with ⟨rfl, h7⟩
    rw [h7]
    have h8 := storeTraktRatings_traktLists h3
    exact h8
  · have hr2 : conf.ratings = false := Bool.not_eq_true _ ▸ hr
    rw [hr2] at h
    simp only [Bool.false_eq_true, if_false] at h
    rw [(SyncM.ret_inv h).2]

/-- The diff of a source list against the zero-value mirror list: every source
item in Add, nothing in Remove. -/
theorem listDiff_empty (L : IMDbList) :
    ListDiff L emptyTraktList =
      { add := L.listItems.map toTraktItem, remove := [] } := by
  simp [ListDiff, emptyTraktList]

/-- Full-mode list sync over a present-but-empty mirror list: one add call
carrying every source item, and no remove call. -/
theorem syncListOne_created (tc : TraktClientResp) (u : UserState)
    (L : IMDbList)
    (hwl : L.isWatchlist = false)
    (hlk : assocLookup u.traktLists L.listID = none)
    (hne : L.listItems ≠ [])
    (hok : tc.listItemsAdd (InferTraktListSlug L.listName)
      (L.listItems.map toTraktItem) = Except.ok ()) :
    syncListOne tc SyncMode.full u L =
      ([Event.listItemsAdd (InferTraktListSlug L.listName)
        (L.listItems.map toTraktItem)], Except.ok ()) := by
  have hlen : 0 < (L.listItems.map toTraktItem).length := by
    simpa using List.length_pos.mpr hne
  have hlen2 : 0 < L.listItems.length := List.length_pos.mpr hne
  unfold syncListOne
  rw [hwl, hlk]
  simp [listDiff_empty, hlen, hlen2, hok, SyncM.seq, SyncM.call, SyncM.ret,
    Option.getD]

/-- C7: a mirror list created during hydration in response to a not-found
signal is not re-fetched (the run performs exactly one mirror list fetch and
one create-list call), the hydrated state holds no entry for it, the diff that
syncLists computes for it therefore puts every source item in Add with an
empty Remove, and the subsequent full-mode sync of that list issues exactly
the one add call carrying all source items. -/
theorem C7_created_list (ic : IMDbClientResp) (tc : TraktClientResp)
    (conf : SyncConf) (u0 : UserState) (trH : List Event) (u' : UserState)
    (ls : List IMDbList) (L : IMDbList)
    (hlists : conf.lists = true) (hw : conf.watchlist = false)
    (hmode : conf.mode = SyncMode.full)
    (hu0 : u0.traktLists = [])
    (h : hydrate ic tc conf false u0 = (trH, Except.ok u'))
    (hlg : ic.listsGet (u0.imdbLists.map Prod.fst) = Except.ok ls)
    (_hmem : L ∈ ls)
    (hdel : (tc.listsGet (mkIDMetas ls)).2 =
      [DelegatedError.notFound (InferTraktListSlug L.listName)])
    (hnotin : ∀ tl ∈ (tc.listsGet (mkIDMetas ls)).1,
      tl.idMeta.imdb ≠ L.listID) :
    countKind EventKind.traktListsGet trH = 1 ∧
    countKind EventKind.listAdd trH = 1 ∧
    assocLookup u'.traktLists L.listID = none ∧
    ListDiff L ((assocLookup u'.traktLists L.listID).getD emptyTraktList) =
      { add := L.listItems.map toTraktItem, remove := [] } ∧
    (L.isWatchlist = false → L.listItems ≠ [] →
      tc.listItemsAdd (InferTraktListSlug L.listName)
        (L.listItems.map toTraktItem) = Except.ok () →
      syncListOne tc SyncMode.full u' L =
        ([Event.listItemsAdd (InferTraktListSlug L.listName)
          (L.listItems.map toTraktItem)], Except.ok ())) := by
  rcases hydrate_ok_decomp h with
    ⟨trE, trL, u1, trW, u2, trR, hE, hL, hWq, hR, htr⟩
  have hlook : assocLookup u'.traktLists L.listID = none := by
    have h1 : u'.traktLists = u2.traktLists := hydrateRatings_traktLists hR
    have h2 : u2 = u1 := hydrateWatchlist_state_nil hw hWq
    have h3 : u1.traktLists = (tc.listsGet (mkIDMetas ls)).1.foldl
        (fun acc tl => assocInsert acc tl.idMeta.imdb tl) u0.traktLists :=
      hydrateLists_state hlists hlg hL
    rw [h1, h2, h3, hu0]
    exact assocLookup_foldl_insert_none _ _ _ rfl hnotin
  obtain ⟨trRest, hdec, hrest⟩ :=
    hydrate_trace_decomp ic tc conf false u0 trE ls hlists hE hlg
  have htrH : trH = (hydrate ic tc conf false u0).1 :=
    (congrArg Prod.fst h).symm
  have hcount1 : countKind EventKind.traktListsGet trH = 1 := by
    rw [htrH, hdec, hdel,
      processDelegated_single_notFound_trace tc conf.mode (mkIDMetas ls) _,
      hmode]
    rw [if_neg (by decide : ¬ SyncMode.full = SyncMode.dryRun)]
    rw [countKind_append, countKind_cons, countKind_cons, countKind_append,
      countKind_cons, countKind_nil]
    rw [countKind_eq_zero (fun e he => by
      have h4 := hydrateExports_kinds ic conf _ e (by rw [hE]; exact he)
      simp only [List.mem_cons, List.not_mem_nil, or_false] at h4
      rcases h4 with h5 | h5 | h5 <;> rw [h5] <;> simp)]
    rw [countKind_eq_zero (fun e he => by
      have h4 := hrest e he
      simp only [List.mem_cons, List.not_mem_nil, or_false] at h4
      rcases h4 with h5 | h5 | h5 | h5 <;> rw [h5] <;> simp)]
    simp [Event.kind]
  have hcount2 : countKind EventKind.listAdd trH = 1 := by
    rw [htrH, hdec, hdel,
      processDelegated_single_notFound_trace tc conf.mode (mkIDMetas ls) _,
      hmode]
    rw [if_neg (by decide : ¬ SyncMode.full = SyncMode.dryRun)]
    rw [countKind_append, countKind_cons, countKind_cons, countKind_append,
      countKind_cons, countKind_nil]
    rw [countKind_eq_zero (fun e he => by
      have h4 := hydrateExports_kinds ic conf _ e (by rw [hE]; exact he)
      simp only [List.mem_cons, List.not_mem_nil, or_false] at h4
      rcases h4 with h5 | h5 | h5 <;> rw [h5] <;> simp)]
    rw [countKind_eq_zero (fun e he => by
      have h4 := hrest e he
      simp only [List.mem_cons, List.not_mem_nil, or_false] at h4
      rcases h4 with h5 | h5 | h5 | h5 <;> rw [h5] <;> simp)]
    simp [Event.kind]
  refine ⟨hcount1, hcount2, hlook, ?_, ?_⟩
  · rw [hlook]
    exact listDiff_empty L
  · intro hwl hne hok
    exact syncListOne_created tc u' L hwl hlook hne hok

/-- C7 witness: the concrete run of C4's fixtures — one mirror list fetch, one
create-list call, and a full-mode sync of the created list that adds the
single source item. -/
theorem C7_created_list_witness :
    countKind EventKind.traktListsGet
      (hydrate icC4 tcC4 confC1 false (initialUser confC1 ["l1"])).1 = 1 := by
  have hok : (match (hydrate icC4 tcC4 confC1 false
      (initialUser confC1 ["l1"])).2 with
      | Except.ok _ => true
      | Except.error _ => false) = true := by decide
  rcases heq : hydrate icC4 tcC4 confC1 false (initialUser confC1 ["l1"])
    with ⟨trH, r⟩
  cases r with
  | error e =>
    rw [heq] at hok
    simp at hok
  | ok u' =>
    exact (C7_created_list icC4 tcC4 confC1 (initialUser confC1 ["l1"]) trH u'
      [{ listID := "l1", listName := "My List", isWatchlist := false,
         listItems := [{ id := "tt1", titleType := "movie", rating := 7 }] }]
      { listID := "l1", listName := "My List", isWatchlist := false,
        listItems := [{ id := "tt1", titleType := "movie", rating := 7 }] }
      rfl rfl rfl rfl heq rfl (by simp) (by decide) (by decide)).1

/-! ### C8 -/

theorem stage_of_ok {x : SyncM α} {tr : List Event} {a : α}
    (h : x = (tr, Except.ok a)) (m : String) (k : α → SyncM Unit) :
    stage x m k = (tr ++ (k a).1, (k a).2) := by
  subst h; rfl

theorem stage_of_error {x : SyncM α} {tr : List Event} {e : String}
    (h : x = (tr, Except.error e)) (m : String) (k : α → SyncM Unit) :
    stage x m k = (tr ++ [Event.logError m e], Except.error e) := by
  subst h; rfl

/-- Kinds an authless hydration can emit: exports and list-block events only;
no watchlist or ratings fetch on either side. -/
theorem hydrate_authless_kinds (ic : IMDbClientResp) (tc : TraktClientResp)
    (conf : SyncConf) (u0 : UserState) :
    ∀ e ∈ (hydrate ic tc conf true u0).1,
      e.kind ∈ [EventKind.ratingsExport, EventKind.listsExport,
        EventKind.watchlistExport, EventKind.imdbListsGet,
        EventKind.traktListsGet, EventKind.logInfo, EventKind.listAdd] := by
  intro e he
  unfold hydrate at he
  rcases SyncM.mem_seq_trace he with h1 | ⟨_, _, h1⟩
  · have h2 := hydrateExports_kinds ic conf _ e h1
    simp only [List.mem_cons, List.not_mem_nil, or_false] at h2 ⊢
    tauto
  · rcases SyncM.mem_seq_trace h1 with h2 | ⟨u1, _, h2⟩
    · have h3 := hydrateLists_kinds ic tc conf _ u0 e h2
      simp only [List.mem_cons, List.not_mem_nil, or_false] at h3 ⊢
      tauto
    · simp [SyncM.ret] at h2

/-- C8: in authless mode, once hydrate and list sync succeed, the whole run
succeeds; the ratings and history stages contribute exactly their skip log
lines and no client calls, list sync proceeds unchanged, and the hydration
trace contains no watchlist or ratings fetch on either service. -/
theorem C8_authless (ic : IMDbClientResp) (tc : TraktClientResp)
    (conf : SyncConf) (u0 : UserState) (trH trL : List Event) (u1 : UserState)
    (hh : hydrate ic tc conf true u0 = (trH, Except.ok u1))
    (hl : syncLists tc conf u1 = (trL, Except.ok ())) :
    Sync ic tc conf true u0 =
      (Event.logInfo "sync started" :: (trH ++ (trL ++
        [Event.logInfo "skipping ratings sync since no imdb auth was provided",
         Event.logInfo "skipping history sync since no imdb auth was provided",
         Event.logInfo "sync completed"])), Except.ok ()) ∧
    filterKinds [EventKind.imdbWatchlistGet, EventKind.traktWatchlistGet,
      EventKind.traktRatingsGet, EventKind.imdbRatingsGet] trH = [] := by
  constructor
  · have hr : syncRatings tc conf true u1 =
        ([Event.logInfo "skipping ratings sync since no imdb auth was provided"],
         Except.ok ()) := rfl
    have hq : syncHistory tc conf true u1 =
        ([Event.logInfo "skipping history sync since no imdb auth was provided"],
         Except.ok ()) := rfl
    unfold Sync
    rw [SyncM.seq_of_ok (SyncM.emit_eq (Event.logInfo "sync started")),
      stage_of_ok hh, stage_of_ok hl, stage_of_ok hr, stage_of_ok hq]
    simp [SyncM.emit]
  · refine filterKinds_eq_nil ?_
    intro e he hk
    have h2 := hydrate_authless_kinds ic tc conf u0 e (by rw [hh]; exact he)
    simp only [List.mem_cons, List.not_mem_nil, or_false] at h2 hk
    rcases h2 with h3 | h3 | h3 | h3 | h3 | h3 | h3 <;> rw [h3] at hk <;>
      simp at hk

/-- The state a concrete authless lists-only hydration produces. -/
def uC8 : UserState :=
  { imdbLists := [("l1",
      { listID := "l1", listName := "My List", isWatchlist := false,
        listItems := [{ id := "tt1", titleType := "movie", rating := 7 }] })],
    imdbRatings := [], traktLists := [], traktRatings := [] }

/-- C8 witness: a concrete authless lists-only run succeeds end to end —
list sync still adds the source item while the ratings and history stages
only log their skip reason. -/
theorem C8_authless_witness :
    filterKinds [EventKind.imdbWatchlistGet, EventKind.traktWatchlistGet,
      EventKind.traktRatingsGet, EventKind.imdbRatingsGet]
      (hydrate icC4 tcOkBase confC1 true (initialUser confC1 ["l1"])).1 =
      [] := by
  have hok : (match (hydrate icC4 tcOkBase confC1 true
      (initialUser confC1 ["l1"])).2 with
      | Except.ok _ => true
      | Except.error _ => false) = true := by decide
  rcases heq : hydrate icC4 tcOkBase confC1 true (initialUser confC1 ["l1"])
    with ⟨trH, r⟩
  cases r with
  | error e =>
    rw [heq] at hok
    simp at hok
  | ok u1 =>
    have h5 := congrArg Prod.snd heq
    have h7 : (hydrate icC4 tcOkBase confC1 true
        (initialUser confC1 ["l1"])).2 = Except.ok uC8 := rfl
    rw [h7] at h5
    injection h5 with h8
    subst h8
    rcases hleq : syncLists tcOkBase confC1 uC8 with ⟨trL, rL⟩
    cases rL with
    | error e =>
      have h9 : (syncLists tcOkBase confC1 uC8).2 = Except.ok () := rfl
      rw [hleq] at h9
      simp at h9
    | ok a =>
      cases a
      exact (C8_authless icC4 tcOkBase confC1 (initialUser confC1 ["l1"])
        trH trL uC8 heq hleq).2

/-! ### C9 -/

/-- C9: a run executes hydrate, list sync, ratings sync and history sync in
that order; the first stage failure is logged and surfaced as the run's
result, later stages contribute nothing to the trace, and when every stage
succeeds the run succeeds with the stages' traces concatenated in order. -/
theorem C9_stage_order (ic : IMDbClientResp) (tc : TraktClientResp)
    (conf : SyncConf) (authless : Bool) (u0 : UserState) :
    (∀ trH e, hydrate ic tc conf authless u0 = (trH, Except.error e) →
      Sync ic tc conf authless u0 =
        (Event.logInfo "sync started" ::
          (trH ++ [Event.logError "failure hydrating imdb client" e]),
         Except.error e)) ∧
    (∀ trH u1, hydrate ic tc conf authless u0 = (trH, Except.ok u1) →
      (∀ trL e, syncLists tc conf u1 = (trL, Except.error e) →
        Sync ic tc conf authless u0 =
          (Event.logInfo "sync started" ::
            (trH ++ (trL ++ [Event.logError "failure syncing lists" e])),
           Except.error e)) ∧
      (∀ trL, syncLists tc conf u1 = (trL, Except.ok ()) →
        (∀ trR e, syncRatings tc conf authless u1 = (trR, Except.error e) →
          Sync ic tc conf authless u0 =
            (Event.logInfo "sync started" ::
              (trH ++ (trL ++ (trR ++
                [Event.logError "failure syncing ratings" e]))),
             Except.error e)) ∧
        (∀ trR, syncRatings tc conf authless u1 = (trR, Except.ok ()) →
          (∀ trQ e, syncHistory tc conf authless u1 = (trQ, Except.error e) →
            Sync ic tc conf authless u0 =
              (Event.logInfo "sync started" ::
                (trH ++ (trL ++ (trR ++ (trQ ++
                  [Event.logError "failure syncing history" e])))),
               Except.error e)) ∧
          (∀ trQ, syncHistory tc conf authless u1 = (trQ, Except.ok ()) →
            Sync ic tc conf authless u0 =
              (Event.logInfo "sync started" ::
                (trH ++ (trL ++ (trR ++ (trQ ++
                  [Event.logInfo "sync completed"])))),
               Except.ok ()))))) := by
  constructor
  · intro trH e hH
    unfold Sync
    rw [SyncM.seq_of_ok (SyncM.emit_eq (Event.logInfo "sync started")),
      stage_of_error hH]
    simp
  · intro trH u1 hH
    constructor
    · intro trL e hL
      unfold Sync
      rw [SyncM.seq_of_ok (SyncM.emit_eq (Event.logInfo "sync started")),
        stage_of_ok hH, stage_of_error hL]
      simp
    · intro trL hL
      constructor
      · intro trR e hR
        unfold Sync
        rw [SyncM.seq_of_ok (SyncM.emit_eq (Event.logInfo "sync started")),
          stage_of_ok hH, stage_of_ok hL, stage_of_error hR]
        simp
      · intro trR hR
        constructor
        · intro trQ e hQ
          unfold Sync
          rw [SyncM.seq_of_ok (SyncM.emit_eq (Event.logInfo "sync started")),
            stage_of_ok hH, stage_of_ok hL, stage_of_ok hR, stage_of_error hQ]
          simp
        · intro trQ hQ
          unfold Sync
          rw [SyncM.seq_of_ok (SyncM.emit_eq (Event.logInfo "sync started")),
            stage_of_ok hH, stage_of_ok hL, stage_of_ok hR, stage_of_ok hQ]
          simp [SyncM.emit]

/-- C9 witness: a concrete run with every domain disabled walks the four
stages in order and succeeds with exactly the skip logs. -/
theorem C9_stage_order_witness :
    Sync icOkBase tcOkBase confDry false (initialUser confDry []) =
      ([Event.logInfo "sync started",
        Event.logInfo "skipping watchlist sync",
        Event.logInfo "skipping lists sync",
        Event.logInfo "skipping ratings sync",
        Event.logInfo "skipping history sync",
        Event.logInfo "sync completed"], Except.ok ()) := by
  have h := ((((C9_stage_order icOkBase tcOkBase confDry false
      (initialUser confDry [])).2 [] (initialUser confDry []) rfl).2
      [Event.logInfo "skipping watchlist sync",
       Event.logInfo "skipping lists sync"] rfl).2
      [Event.logInfo "skipping ratings sync"] rfl).2
      [Event.logInfo "skipping history sync"] rfl
  exact h

/-! ### C10 -/

/-- When every item's identity derives and every history lookup succeeds, the
history-Add collection succeeds and performs exactly one history read per
input item. -/
theorem collectHistoryAdd_ok_of (tc : TraktClientResp) (l : List TraktItem)
    (hids : ∀ it ∈ l, ∃ id hs, it.getItemID = Except.ok (some id) ∧
      tc.historyGet it.itemType id = Except.ok hs) :
    ∃ tr res, collectHistoryAdd tc l = (tr, Except.ok res) ∧
      countKind EventKind.historyGet tr = l.length := by
  induction l with
  | nil => exact ⟨[], [], rfl, rfl⟩
  | cons it rest ih =>
    obtain ⟨id, hs, hid, hget⟩ := hids it (List.mem_cons_self _ _)
    obtain ⟨tr, res, hcol, hcnt⟩ :=
      ih (fun x hx => hids x (List.mem_cons_of_mem _ hx))
    by_cases hlen : hs.length > 0
    · refine ⟨Event.historyGet it.itemType id :: tr, res, ?_, ?_⟩
      · rw [collectHistoryAdd_cons, hid]
        simp [SyncM.call_of_ok hget, SyncM.seq, hlen, hcol]
      · rw [countKind_cons, hcnt]
        simp [Event.kind, Nat.add_comm]
    · refine ⟨Event.historyGet it.itemType id :: tr, it :: res, ?_, ?_⟩
      · rw [collectHistoryAdd_cons, hid]
        simp [SyncM.call_of_ok hget, SyncM.seq, hlen, hcol, SyncM.ret]
      · rw [countKind_cons, hcnt]
        simp [Event.kind, Nat.add_comm]

/-- Equation form of the cons case of `collectHistoryRemove`. -/
theorem collectHistoryRemove_cons (tc : TraktClientResp) (it : TraktItem)
    (rest : List TraktItem) :
    collectHistoryRemove tc (it :: rest) =
      match it.getItemID with
      | Except.error e => SyncM.fail ("failure fetching trakt item id: " ++ e)
      | Except.ok none => SyncM.fail "nil trakt item id"
      | Except.ok (some id) =>
        SyncM.seq
          (SyncM.call (Event.historyGet it.itemType id)
            ("failure fetching trakt history for " ++ it.itemType ++ " " ++
              id ++ ": ")
            (tc.historyGet it.itemType id)) (fun history =>
          if history.length = 0 then collectHistoryRemove tc rest
          else
            SyncM.seq (collectHistoryRemove tc rest)
              (fun more => SyncM.ret (it :: more))) := rfl

/-- When every item's identity derives and every history lookup succeeds, the
history-Remove collection succeeds and performs exactly one history read per
input item. -/
theorem collectHistoryRemove_ok_of (tc : TraktClientResp) (l : List TraktItem)
    (hids : ∀ it ∈ l, ∃ id hs, it.getItemID = Except.ok (some id) ∧
      tc.historyGet it.itemType id = Except.ok hs) :
    ∃ tr res, collectHistoryRemove tc l = (tr, Except.ok res) ∧
      countKind EventKind.historyGet tr = l.length := by
  induction l with
  | nil => exact ⟨[], [], rfl, rfl⟩
  | cons it rest ih =>
    obtain ⟨id, hs, hid, hget⟩ := hids it (List.mem_cons_self _ _)
    obtain ⟨tr, res, hcol, hcnt⟩ :=
      ih (fun x hx => hids x (List.mem_cons_of_mem _ hx))
    by_cases hlen : hs.length = 0
    · refine ⟨Event.historyGet it.itemType id :: tr, res, ?_, ?_⟩
      · rw [collectHistoryRemove_cons, hid]
        simp [SyncM.call_of_ok hget, SyncM.seq, hlen, hcol]
      · rw [countKind_cons, hcnt]
        simp [Event.kind, Nat.add_comm]
    · refine ⟨Event.historyGet it.itemType id :: tr, it :: res, ?_, ?_⟩
      · rw [collectHistoryRemove_cons, hid]
        simp [SyncM.call_of_ok hget, SyncM.seq, hlen, hcol, SyncM.ret]
      · rw [countKind_cons, hcnt]
        simp [Event.kind, Nat.add_comm]

/-- C10: in dry-run mode, history sync still performs one mirror history read
per item of the ratings-diff Add and Remove sets (given that every identity
derives and every lookup succeeds), while performing zero mutating
history-add and history-remove calls. -/
theorem C10_dryrun_history_reads (tc : TraktClientResp) (conf : SyncConf)
    (u : UserState)
    (hmode : conf.mode = SyncMode.dryRun) (hhist : conf.history = true)
    (hids : ∀ it ∈ (ItemsDifference u.imdbRatings u.traktRatings).add ++
        (ItemsDifference u.imdbRatings u.traktRatings).remove,
      ∃ id hs, it.getItemID = Except.ok (some id) ∧
        tc.historyGet it.itemType id = Except.ok hs) :
    countKind EventKind.historyGet (syncHistory tc conf false u).1 =
      (ItemsDifference u.imdbRatings u.traktRatings).add.length +
        (ItemsDifference u.imdbRatings u.traktRatings).remove.length ∧
    countKind EventKind.historyAdd (syncHistory tc conf false u).1 = 0 ∧
    countKind EventKind.historyRemove (syncHistory tc conf false u).1 = 0 := by
  obtain ⟨trA, hta, hcA, hcntA⟩ := collectHistoryAdd_ok_of tc _
    (fun x hx => hids x (List.mem_append_left _ hx))
  obtain ⟨trR, htr, hcR, hcntR⟩ := collectHistoryRemove_ok_of tc _
    (fun x hx => hids x (List.mem_append_right _ hx))
  have hA0 : ∀ k, k ≠ EventKind.historyGet → countKind k trA = 0 := by
    intro k hk
    refine countKind_eq_zero ?_
    intro e he
    rw [collectHistoryAdd_kinds tc _ e (by rw [hcA]; exact he)]
    exact fun h2 => hk h2.symm
  have hR0 : ∀ k, k ≠ EventKind.historyGet → countKind k trR = 0 := by
    intro k hk
    refine countKind_eq_zero ?_
    intro e he
    rw [collectHistoryRemove_kinds tc _ e (by rw [hcR]; exact he)]
    exact fun h2 => hk h2.symm
  unfold syncHistory
  simp only [Bool.false_eq_true, if_false, hhist, Bool.not_true]
  by_cases ha : (ItemsDifference u.imdbRatings u.traktRatings).add.length > 0 <;>
    by_cases hr : (ItemsDifference u.imdbRatings u.traktRatings).remove.length > 0
  · by_cases h4 : hta.length > 0 <;> by_cases h5 : htr.length > 0 <;>
      refine ⟨?_, ?_, ?_⟩ <;>
      simp [ha, hr, h4, h5, hcA, hcR, hmode, SyncM.seq, SyncM.ret, SyncM.emit,
        countKind_append, countKind_cons, countKind_nil, Event.kind,
        hcntA, hcntR, hA0 EventKind.historyAdd (by decide),
        hA0 EventKind.historyRemove (by decide),
        hR0 EventKind.historyAdd (by decide),
        hR0 EventKind.historyRemove (by decide)]
  · have hr0 : (ItemsDifference u.imdbRatings u.traktRatings).remove.length = 0 :=
      Nat.eq_zero_of_not_pos hr
    by_cases h4 : hta.length > 0 <;>
      refine ⟨?_, ?_, ?_⟩ <;>
      simp [ha, hr, hr0, h4, hcA, hmode, SyncM.seq, SyncM.ret, SyncM.emit,
        countKind_append, countKind_cons, countKind_nil, Event.kind,
        hcntA, hA0 EventKind.historyAdd (by decide),
        hA0 EventKind.historyRemove (by decide)]
  · have ha0 : (ItemsDifference u.imdbRatings u.traktRatings).add.length = 0 :=
      Nat.eq_zero_of_not_pos ha
    by_cases h5 : htr.length > 0 <;>
      refine ⟨?_, ?_, ?_⟩ <;>
      simp [ha, ha0, hr, h5, hcR, hmode, SyncM.seq, SyncM.ret, SyncM.emit,
        countKind_append, countKind_cons, countKind_nil, Event.kind,
        hcntR, hR0 EventKind.historyAdd (by decide),
        hR0 EventKind.historyRemove (by decide)]
  · have ha0 : (ItemsDifference u.imdbRatings u.traktRatings).add.length = 0 :=
      Nat.eq_zero_of_not_pos ha
    have hr0 : (ItemsDifference u.imdbRatings u.traktRatings).remove.length = 0 :=
      Nat.eq_zero_of_not_pos hr
    refine ⟨?_, ?_, ?_⟩ <;>
      simp [ha, ha0, hr, hr0, SyncM.seq, SyncM.ret, countKind_nil]

/-- Hydrated state for the C10 witness: one source-only rating and one
mirror-only rating, so both diff sets are non-empty. -/
def uC10 : UserState :=
  { imdbLists := [], traktLists := [],
    imdbRatings := [("tt1", { id := "tt1", titleType := "movie", rating := 8 })],
    traktRatings := [("tt2", { itemType := "movie", imdbID := "tt2" })] }

/-- Dry-run configuration with history sync enabled. -/
def confC10 : SyncConf :=
  { lists := false, watchlist := false, ratings := true, history := true,
    mode := SyncMode.dryRun }

/-- C10 witness: at a concrete dry-run state with one Add item and one Remove
item, history sync performs exactly two mirror history reads and zero
mutating history calls. -/
theorem C10_dryrun_history_reads_witness :
    countKind EventKind.historyGet (syncHistory tcOkBase confC10 false uC10).1 = 2 ∧
    countKind EventKind.historyAdd (syncHistory tcOkBase confC10 false uC10).1 = 0 ∧
    countKind EventKind.historyRemove
      (syncHistory tcOkBase confC10 false uC10).1 = 0 := by
  have h := C10_dryrun_history_reads tcOkBase confC10 uC10 rfl rfl
    (by
      intro it hit
      rw [show (ItemsDifference uC10.imdbRatings uC10.traktRatings).add ++
          (ItemsDifference uC10.imdbRatings uC10.traktRatings).remove =
          [{ itemType := "movie", imdbID := "tt1" },
           { itemType := "movie", imdbID := "tt2" }] from rfl] at hit
      simp only [List.mem_cons, List.not_mem_nil, or_false] at hit
      rcases hit with rfl | rfl
      · exact ⟨"tt1", [], rfl, rfl⟩
      · exact ⟨"tt2", [], rfl, rfl⟩)
  exact h

end ImdbTraktSync
